import Mathlib

/-!
Verification of the RNTuple binary serializer/deserializer
(`tree/ntuple/v7/src/RNTupleSerialize.cxx`).

The C++ code is shallowly embedded: buffers are lists of byte values
(`List Nat`, each element the value of one `unsigned char`), machine
integers are `Nat`/`Int` with explicit reduction modulo `2 ^ width`,
and exception-throwing functions return `Except SerErr`.  Serialization
functions of the source write bytes through a pointer (or count bytes
when the pointer is null) and return the number of bytes written; here
they return the written byte list, whose length is that count, together
with auxiliary results.  Queue-driven loops of the source are embedded
with an explicit iteration bound (`fuel`) that the top-level wrappers
instantiate with the exact number of iterations the C++ loop performs,
so the bound never alters the semantics.
-/

set_option autoImplicit false

namespace RNTuple

/-- Error kinds thrown (as `RException`) by the codec; one constructor per
distinct failure message family of `RNTupleSerialize.cxx`. -/
inductive SerErr where
  /-- Messages of the form "buffer too short" / "invalid envelope, too short" /
  "too short locator" / "too short cluster summary" / "too short cluster group". -/
  | bufferTooShort
  /-- Message "CRC32 checksum mismatch". -/
  | checksumMismatch
  /-- Message "The RNTuple format is too old (version 0)". -/
  | formatTooOld
  /-- Message "The RNTuple format is too new (version ...)". -/
  | formatTooNew
  /-- Message "unexpected on-disk column type". -/
  | unexpectedColumnType
  /-- Message "unexpected on-disk field structure value". -/
  | unexpectedFieldStructure
  /-- Message "unsupported locator type: ...". -/
  | unsupportedLocatorType
  /-- Message "locator too large". -/
  | locatorTooLarge
  /-- Message "list frame too large: ...". -/
  | listFrameTooLarge
  /-- Message "frame too short" / "Frame too short: ...". -/
  | frameTooShort
  /-- Message "Frame too large: ..." (negative signed frame size). -/
  | frameTooLarge
  /-- Message "corrupt frame size". -/
  | corruptFrameSize
  /-- Message "feature flag out of bounds". -/
  | featureFlagOutOfBounds
  /-- `std::map::at` lookup failure in `RContext` (absent key). -/
  | unknownId
deriving DecidableEq, Repr

/-- Decidable equality of fallible results, for evaluating the codec at
concrete inputs. -/
instance {ε α : Type} [DecidableEq ε] [DecidableEq α] : DecidableEq (Except ε α) :=
  fun a b =>
    match a, b with
    | .ok x, .ok y =>
      if h : x = y then .isTrue (by rw [h]) else .isFalse (by simp [h])
    | .error e, .error f =>
      if h : e = f then .isTrue (by rw [h]) else .isFalse (by simp [h])
    | .ok _, .error _ => .isFalse (by simp)
    | .error _, .ok _ => .isFalse (by simp)

/-! ## Little-endian byte primitives -/

/-- Little-endian decomposition of a machine integer into `w` bytes, the
byte pattern produced by `SerializeInt16/32/64` (RNTupleSerialize.cxx:152,
179, 209): byte `i` is `(n >> 8*i) & 0xFF`.  Values wider than `w` bytes
are truncated, as the `& 0xFF` masks of the source do. -/
def natLE : Nat → Nat → List Nat
  | 0, _ => []
  | w + 1, n => n % 256 :: natLE w (n / 256)

/-- Little-endian recomposition of a byte list, the arithmetic performed by
`DeserializeInt16/32/64` (RNTupleSerialize.cxx:162, 191, 225).  Each element
is reduced `% 256` because a machine byte holds only values below 256. -/
def fromLE : List Nat → Nat
  | [] => 0
  | b :: bs => b % 256 + 256 * fromLE bs

/-- Reinterpretation of a `w`-bit unsigned value as the signed two's-complement
value with the same bit pattern (the `reinterpret_cast` / implicit
integer-conversion steps of the source). -/
def toSigned (w : Nat) (n : Nat) : Int :=
  if n < 2 ^ (w - 1) then (n : Int) else (n : Int) - 2 ^ w

/-- Bytes written by `RNTupleSerializer::SerializeInt16`
(RNTupleSerialize.cxx:152): two's-complement little-endian. -/
def int16Bytes (v : Int) : List Nat := natLE 2 ((v % (2 : Int) ^ 16).toNat)

/-- Bytes written by `RNTupleSerializer::SerializeInt32`
(RNTupleSerialize.cxx:179). -/
def int32Bytes (v : Int) : List Nat := natLE 4 ((v % (2 : Int) ^ 32).toNat)

/-- Bytes written by `RNTupleSerializer::SerializeInt64`
(RNTupleSerialize.cxx:209). -/
def int64Bytes (v : Int) : List Nat := natLE 8 ((v % (2 : Int) ^ 64).toNat)

/-- Bytes written by `RNTupleSerializer::SerializeUInt16`
(RNTupleSerialize.cxx:169), which forwards to `SerializeInt16` through the
unsigned-to-signed conversion. -/
def uint16Bytes (v : Nat) : List Nat := int16Bytes (toSigned 16 (v % 2 ^ 16))

/-- Bytes written by `RNTupleSerializer::SerializeUInt32`
(RNTupleSerialize.cxx:199), forwarding to `SerializeInt32`. -/
def uint32Bytes (v : Nat) : List Nat := int32Bytes (toSigned 32 (v % 2 ^ 32))

/-- Bytes written by `RNTupleSerializer::SerializeUInt64`
(RNTupleSerialize.cxx:235), forwarding to `SerializeInt64`. -/
def uint64Bytes (v : Nat) : List Nat := int64Bytes (toSigned 64 (v % 2 ^ 64))

/-- `RNTupleSerializer::SerializeInt16` (RNTupleSerialize.cxx:152): with a
real buffer (`true`) it writes `int16Bytes val`; with a null buffer it
writes nothing; in both cases it returns the width 2. -/
def SerializeInt16 (val : Int) (buffer : Bool) : List Nat × Nat :=
  (if buffer then int16Bytes val else [], 2)

/-- `RNTupleSerializer::SerializeInt32` (RNTupleSerialize.cxx:179); returns 4. -/
def SerializeInt32 (val : Int) (buffer : Bool) : List Nat × Nat :=
  (if buffer then int32Bytes val else [], 4)

/-- `RNTupleSerializer::SerializeInt64` (RNTupleSerialize.cxx:209); returns 8. -/
def SerializeInt64 (val : Int) (buffer : Bool) : List Nat × Nat :=
  (if buffer then int64Bytes val else [], 8)

/-- `RNTupleSerializer::SerializeUInt16` (RNTupleSerialize.cxx:169). -/
def SerializeUInt16 (val : Nat) (buffer : Bool) : List Nat × Nat :=
  SerializeInt16 (toSigned 16 (val % 2 ^ 16)) buffer

/-- `RNTupleSerializer::SerializeUInt32` (RNTupleSerialize.cxx:199). -/
def SerializeUInt32 (val : Nat) (buffer : Bool) : List Nat × Nat :=
  SerializeInt32 (toSigned 32 (val % 2 ^ 32)) buffer

/-- `RNTupleSerializer::SerializeUInt64` (RNTupleSerialize.cxx:235). -/
def SerializeUInt64 (val : Nat) (buffer : Bool) : List Nat × Nat :=
  SerializeInt64 (toSigned 64 (val % 2 ^ 64)) buffer

/-- `RNTupleSerializer::DeserializeInt16` (RNTupleSerialize.cxx:162): reads
the first two bytes of the buffer little-endian into a signed 16-bit value. -/
def DeserializeInt16 (buffer : List Nat) : Int := toSigned 16 (fromLE (buffer.take 2))

/-- `RNTupleSerializer::DeserializeInt32` (RNTupleSerialize.cxx:191). -/
def DeserializeInt32 (buffer : List Nat) : Int := toSigned 32 (fromLE (buffer.take 4))

/-- `RNTupleSerializer::DeserializeInt64` (RNTupleSerialize.cxx:225). -/
def DeserializeInt64 (buffer : List Nat) : Int := toSigned 64 (fromLE (buffer.take 8))

/-- `RNTupleSerializer::DeserializeUInt16` (RNTupleSerialize.cxx:174):
forwards to `DeserializeInt16` and reinterprets the result as unsigned. -/
def DeserializeUInt16 (buffer : List Nat) : Nat :=
  ((DeserializeInt16 buffer) % (2 : Int) ^ 16).toNat

/-- `RNTupleSerializer::DeserializeUInt32` (RNTupleSerialize.cxx:204). -/
def DeserializeUInt32 (buffer : List Nat) : Nat :=
  ((DeserializeInt32 buffer) % (2 : Int) ^ 32).toNat

/-- `RNTupleSerializer::DeserializeUInt64` (RNTupleSerialize.cxx:240). -/
def DeserializeUInt64 (buffer : List Nat) : Nat :=
  ((DeserializeInt64 buffer) % (2 : Int) ^ 64).toNat

/-- Bytes written by `RNTupleSerializer::SerializeString`
(RNTupleSerialize.cxx:245): a `u32` byte length followed by the raw bytes.
The string is modelled as its byte list (the codec is byte-transparent). -/
def stringBytes (val : List Nat) : List Nat := uint32Bytes val.length ++ val

/-! ## CRC-32 -/

/-- One bit step of the reflected CRC-32 with polynomial 0xEDB88320. -/
def crcBitStep (c : Nat) : Nat :=
  if c % 2 = 1 then (c / 2) ^^^ 0xEDB88320 else c / 2

/-- One byte step of CRC-32: fold the byte in and run eight bit steps. -/
def crcByteStep (c b : Nat) : Nat :=
  crcBitStep (crcBitStep (crcBitStep (crcBitStep
    (crcBitStep (crcBitStep (crcBitStep (crcBitStep (c ^^^ b % 256))))))))

/-- Modelled from the spec: the external checksum primitive `R__crc32`
(zlib's `crc32`), which the codec consumes as an opaque function
`crc32(seed, bytes)` (the primitive itself is an out-of-scope collaborator,
declared in `RZip.h`).  This is the standard reflected CRC-32. -/
def crc32Upd (seed : Nat) (data : List Nat) : Nat :=
  (data.foldl crcByteStep (seed ^^^ 0xFFFFFFFF)) ^^^ 0xFFFFFFFF

/-- Checksum value computed by both `SerializeCRC32` and `VerifyCRC32`
(RNTupleSerialize.cxx:130, 141): `crc32(crc32(0, nullptr, 0), data, length)`,
where zlib's `crc32(0, nullptr, 0)` is 0. -/
def crc32Of (data : List Nat) : Nat := crc32Upd (crc32Upd 0 []) data

/-- Bytes written by `RNTupleSerializer::SerializeCRC32`
(RNTupleSerialize.cxx:130) for the byte range `data` (4 bytes; the function
returns 4 also when the buffer is null and nothing is written). -/
def serializeCRC32Bytes (data : List Nat) : List Nat := uint32Bytes (crc32Of data)

/-- `RNTupleSerializer::VerifyCRC32` (RNTupleSerialize.cxx:141): recomputes
the checksum of the first `length` bytes and compares it with the `u32`
stored at offset `length`. -/
def VerifyCRC32 (data : List Nat) (length : Nat) : Except SerErr Unit :=
  if DeserializeUInt32 (data.drop length) = crc32Of (data.take length) then .ok ()
  else .error .checksumMismatch

/-! ## Envelopes -/

/-- `RNTupleSerializer::kEnvelopeCurrentVersion` (RNTupleSerialize.hxx:967). -/
def kEnvelopeCurrentVersion : Nat := 1

/-- `RNTupleSerializer::kEnvelopeMinVersion` (RNTupleSerialize.hxx:968). -/
def kEnvelopeMinVersion : Nat := 1

/-- Bytes written by `RNTupleSerializer::SerializeEnvelopePreamble`
(RNTupleSerialize.cxx:402): `u16` version-at-write, `u16` min-version. -/
def envelopePreambleBytes : List Nat :=
  uint16Bytes kEnvelopeCurrentVersion ++ uint16Bytes kEnvelopeMinVersion

/-- `RNTupleSerializer::DeserializeEnvelope` (RNTupleSerialize.cxx:422):
requires at least 8 bytes, verifies the trailing CRC over `bufSize - 4`
bytes, gates on the two version fields, and returns the 4 consumed
preamble bytes. -/
def DeserializeEnvelope (buffer : List Nat) (bufSize : Nat) : Except SerErr Nat :=
  if bufSize < 8 then .error .bufferTooShort
  else
    match VerifyCRC32 buffer (bufSize - 4) with
    | .error e => .error e
    | .ok _ =>
      if DeserializeUInt16 buffer < 1 then .error .formatTooOld
      else if kEnvelopeCurrentVersion < DeserializeUInt16 (buffer.drop 2) then
        .error .formatTooNew
      else .ok 4

/-- `RNTupleSerializer::ExtractEnvelopeCRC32` (RNTupleSerialize.cxx:446):
reads the trailing 4 bytes without verifying. -/
def ExtractEnvelopeCRC32 (data : List Nat) (bufSize : Nat) : Except SerErr Nat :=
  if bufSize < 8 then .error .bufferTooShort
  else .ok (DeserializeUInt32 (data.drop (bufSize - 4)))

/-! ## Frames -/

/-- Bytes written by `RNTupleSerializer::SerializeRecordFramePreamble`
(RNTupleSerialize.cxx:457): the marker +1 as an `i32` (returns 4). -/
def recordFramePreambleBytes : List Nat := int32Bytes 1

/-- Bytes written by `RNTupleSerializer::SerializeListFramePreamble`
(RNTupleSerialize.cxx:463): rejects `nitems ≥ 1 << 28`, then writes the
marker -1 as an `i32` followed by `u32 nitems` (returns 8).  The bound
check runs also in the size-only pass (it precedes the buffer test). -/
def listFramePreambleBytes (nitems : Nat) : Except SerErr (List Nat) :=
  if 1 <<< 28 ≤ nitems then .error .listFrameTooLarge
  else .ok (int32Bytes (-1) ++ uint32Bytes nitems)

/-- Overwrite `bs.length` bytes of `buf` starting at offset `off` (the
`SerializeInt32(..., frame)` back-patch write of the postscript). -/
def writeAt (buf : List Nat) (off : Nat) (bs : List Nat) : List Nat :=
  buf.take off ++ bs ++ buf.drop (off + bs.length)

/-- `RNTupleSerializer::SerializeFramePostscript` (RNTupleSerialize.cxx:479)
with a non-null frame pointer, the frame starting at offset `off` of `buf`:
validates the signed 32-bit `size`, reads back the marker written by the
preamble, and overwrites the marker slot with `marker * size`. -/
def serializeFramePostscript (buf : List Nat) (off : Nat) (size : Int) :
    Except SerErr (List Nat) :=
  if size < 0 then .error .frameTooLarge
  else if size < 4 then .error .frameTooShort
  else if DeserializeInt32 (buf.drop off) < 0 ∧ size < 8 then .error .frameTooShort
  else .ok (writeAt buf off (int32Bytes (DeserializeInt32 (buf.drop off) * size)))

/-- Size-validation part of `SerializeFramePostscript` (RNTupleSerialize.cxx:479)
when the frame pointer is null (size-only pass): only the two size checks run. -/
def framePostscriptSizeCheck (size : Int) : Except SerErr Unit :=
  if size < 0 then .error .frameTooLarge
  else if size < 4 then .error .frameTooShort
  else .ok ()

/-- Result of `DeserializeFrame`: bytes consumed from the frame head (4 or 8),
the declared frame size, and the item count. -/
structure FrameInfo where
  hdrSize : Nat
  frameSize : Nat
  nitems : Nat
deriving DecidableEq, Repr

/-- `RNTupleSerializer::DeserializeFrame` (RNTupleSerialize.cxx:497): reads the
signed 32-bit head; a non-negative head is a record frame of that size with
`nitems = 1`; a negative head is a list frame of `-head` bytes whose `u32`
item count follows, masked with `(2 << 28) - 1`. -/
def DeserializeFrame (buffer : List Nat) (bufSize : Nat) : Except SerErr FrameInfo :=
  if bufSize < 4 then .error .frameTooShort
  else
    let ssize := DeserializeInt32 buffer
    if 0 ≤ ssize then
      if ssize.toNat < 4 then .error .corruptFrameSize
      else if bufSize < ssize.toNat then .error .frameTooShort
      else .ok ⟨4, ssize.toNat, 1⟩
    else
      if bufSize < 8 then .error .frameTooShort
      else
        let nitems := DeserializeUInt32 (buffer.drop 4) &&& (2 <<< 28 - 1)
        if (-ssize).toNat < 8 then .error .corruptFrameSize
        else if bufSize < (-ssize).toNat then .error .frameTooShort
        else .ok ⟨8, (-ssize).toNat, nitems⟩

/-! ## Feature flags -/

/-- Payload bytes emitted by the real-buffer loop of
`RNTupleSerializer::SerializeFeatureFlags` (RNTupleSerialize.cxx:535) on a
non-empty flag vector: a negative flag raises feature-flag-out-of-bounds;
every flag but the last is emitted as a negated `i64`, the last verbatim. -/
def featureFlagsBytes : List Int → Except SerErr (List Nat)
  | [] => .ok []
  | [f] =>
    if f < 0 then .error .featureFlagOutOfBounds
    else .ok (int64Bytes f)
  | f :: g :: rest =>
    if f < 0 then .error .featureFlagOutOfBounds
    else do
      let bs ← featureFlagsBytes (g :: rest)
      .ok (int64Bytes (-f) ++ bs)

/-- `RNTupleSerializer::SerializeFeatureFlags` (RNTupleSerialize.cxx:535):
an empty vector is emitted as a single zero `i64` (return value 8); otherwise
with a real buffer (`true`) the flags are emitted by `featureFlagsBytes`,
while with a null buffer nothing is written and nothing is checked (the
out-of-bounds test sits inside the `if (buffer)` block); the return value is
8 times the flag count. -/
def SerializeFeatureFlags (flags : List Int) (buffer : Bool) :
    Except SerErr (List Nat × Nat) :=
  if flags = [] then .ok (if buffer then int64Bytes 0 else [], 8)
  else if buffer then do
    let bs ← featureFlagsBytes flags
    .ok (bs, 8 * flags.length)
  else .ok ([], 8 * flags.length)

/-- Loop of `RNTupleSerializer::DeserializeFeatureFlags`
(RNTupleSerialize.cxx:557): read an `i64`, record its magnitude (`abs`),
continue while the value read is negative.  `fuel` bounds the iteration
count; the wrapper supplies `size / 8 + 1`, which the loop can never exhaust
because every iteration consumes 8 bytes of `size`. -/
def deserializeFeatureFlagsLoop :
    Nat → List Nat → Nat → List Int → Except SerErr (List Int)
  | fuel, bytes, size, acc =>
    if size < 8 then .error .bufferTooShort
    else if DeserializeInt64 bytes < 0 then
      match fuel with
      | 0 => .error .bufferTooShort
      | fuel + 1 =>
        deserializeFeatureFlagsLoop fuel (bytes.drop 8) (size - 8)
          (acc ++ [((DeserializeInt64 bytes).natAbs : Int)])
    else .ok (acc ++ [((DeserializeInt64 bytes).natAbs : Int)])

/-- `RNTupleSerializer::DeserializeFeatureFlags` (RNTupleSerialize.cxx:557):
returns the decoded flags and the byte count consumed. -/
def DeserializeFeatureFlags (buffer : List Nat) (size : Nat) :
    Except SerErr (List Int × Nat) := do
  let flags ← deserializeFeatureFlagsLoop (size / 8 + 1) buffer size []
  .ok (flags, 8 * flags.length)

/-! ## Locators and cluster summaries -/

/-- `RNTupleLocator` (RNTupleUtil.hxx): byte position, byte count and URL;
the URL string is modelled as its byte list. -/
structure RNTupleLocator where
  fPosition : Nat
  fBytesOnStorage : Nat
  fUrl : List Nat
deriving DecidableEq, Repr

/-- `RNTupleSerializer::SerializeLocator` (RNTupleSerialize.cxx:575): a
non-empty URL is emitted as the negated head `-(length | 0x02 << 24)` followed
by the raw URL bytes (rejecting `length ≥ 1 << 24` as locator-too-large); an
empty URL selects the inline form `u32 bytes_on_storage` then `u64 position`
(rejecting a `bytes_on_storage` that is negative as a signed 32-bit value). -/
def SerializeLocator (locator : RNTupleLocator) : Except SerErr (List Nat) :=
  if locator.fUrl ≠ [] then
    if 1 <<< 24 ≤ locator.fUrl.length then .error .locatorTooLarge
    else
      .ok (int32Bytes (-((locator.fUrl.length ||| 2 <<< 24 : Nat) : Int)) ++
        locator.fUrl)
  else
    if toSigned 32 (locator.fBytesOnStorage % 2 ^ 32) < 0 then .error .locatorTooLarge
    else .ok (uint32Bytes locator.fBytesOnStorage ++ uint64Bytes locator.fPosition)

/-- `RNTupleSerializer::DeserializeLocator` (RNTupleSerialize.cxx:599): a
negative head must carry the type tag 0x02 in its high byte and is followed by
`head & 0xFFFFFF` URL bytes; a non-negative head is the inline
`bytes_on_storage` with the `u64` position following.  Returns the locator and
the bytes consumed. -/
def DeserializeLocator (buffer : List Nat) (bufSize : Nat) :
    Except SerErr (RNTupleLocator × Nat) :=
  if bufSize < 4 then .error .bufferTooShort
  else if DeserializeInt32 buffer < 0 then
    if (-(DeserializeInt32 buffer)).toNat >>> 24 ≠ 2 then .error .unsupportedLocatorType
    else if bufSize - 4 < (-(DeserializeInt32 buffer)).toNat &&& 0xFFFFFF then
      .error .bufferTooShort
    else
      .ok (⟨0, 0, (buffer.drop 4).take ((-(DeserializeInt32 buffer)).toNat &&& 0xFFFFFF)⟩,
        4 + ((-(DeserializeInt32 buffer)).toNat &&& 0xFFFFFF))
  else
    if bufSize - 4 < 8 then .error .bufferTooShort
    else .ok (⟨DeserializeUInt64 (buffer.drop 4), (DeserializeInt32 buffer).toNat, []⟩, 12)

/-- `RNTupleSerializer::RClusterSummary` (RNTupleSerialize.hxx:982);
`fColumnGroupID` is a signed 32-bit value, -1 meaning "all columns". -/
structure RClusterSummary where
  fFirstEntry : Nat
  fNEntries : Nat
  fColumnGroupID : Int
deriving DecidableEq, Repr

/-- `RNTupleSerializer::SerializeClusterSummary` (RNTupleSerialize.cxx:659):
record frame preamble, `u64 first_entry`, then — when `column_group_id ≥ 0` —
the entry count cast to `i64` and negated, followed by `u32 column_group_id`;
otherwise the entry count verbatim; the frame postscript then back-patches the
frame head with the total size.  Returns the frame bytes and the size. -/
def SerializeClusterSummary (clusterSummary : RClusterSummary) :
    Except SerErr (List Nat × Nat) :=
  let payload : List Nat :=
    uint64Bytes clusterSummary.fFirstEntry ++
      (if 0 ≤ clusterSummary.fColumnGroupID then
        int64Bytes (-(toSigned 64 (clusterSummary.fNEntries % 2 ^ 64))) ++
          uint32Bytes (clusterSummary.fColumnGroupID % (2 : Int) ^ 32).toNat
      else int64Bytes (toSigned 64 (clusterSummary.fNEntries % 2 ^ 64)))
  (serializeFramePostscript (recordFramePreambleBytes ++ payload) 0
      ((4 + payload.length : Nat) : Int)).map
    (fun buf => (buf, 4 + payload.length))

/-- `RNTupleSerializer::DeserializeClusterSummary` (RNTupleSerialize.cxx:681):
reads the record frame, `u64 first_entry` and `i64 n_entries`; a negative
entry count means a `u32 column_group_id` follows and the count is its
negation; otherwise `column_group_id` defaults to -1.  Returns the summary
and the frame size. -/
def DeserializeClusterSummary (buffer : List Nat) (bufSize : Nat) :
    Except SerErr (RClusterSummary × Nat) := do
  let info ← DeserializeFrame buffer bufSize
  if info.frameSize - info.hdrSize < 16 then .error .bufferTooShort
  else if DeserializeInt64 ((buffer.drop info.hdrSize).drop 8) < 0 then
    if info.frameSize - info.hdrSize - 16 < 4 then .error .bufferTooShort
    else
      .ok (⟨DeserializeUInt64 (buffer.drop info.hdrSize),
            (-(DeserializeInt64 ((buffer.drop info.hdrSize).drop 8))).toNat,
            toSigned 32 (DeserializeUInt32 (((buffer.drop info.hdrSize).drop 8).drop 8))⟩,
        info.frameSize)
  else
    .ok (⟨DeserializeUInt64 (buffer.drop info.hdrSize),
          (DeserializeInt64 ((buffer.drop info.hdrSize).drop 8)).toNat, -1⟩,
      info.frameSize)

/-! ## Descriptor model -/

/-- `ROOT::Experimental::ENTupleStructure`: the five field-structure values
with an on-disk tag in `SerializeFieldStructure` (RNTupleSerialize.cxx:350). -/
inductive ENTupleStructure where
  | kLeaf
  | kCollection
  | kRecord
  | kVariant
  | kReference
deriving DecidableEq, Repr

/-- Bytes written by `RNTupleSerializer::SerializeFieldStructure`
(RNTupleSerialize.cxx:350): the stable on-disk tag as a `u16`. -/
def serializeFieldStructureBytes : ENTupleStructure → List Nat
  | .kLeaf => uint16Bytes 0x00
  | .kCollection => uint16Bytes 0x01
  | .kRecord => uint16Bytes 0x02
  | .kVariant => uint16Bytes 0x03
  | .kReference => uint16Bytes 0x04

/-- `ROOT::Experimental::EColumnType`: the ten column types with an on-disk
tag in `SerializeColumnType` (RNTupleSerialize.cxx:275). -/
inductive EColumnType where
  | kIndex
  | kSwitch
  | kByte
  | kBit
  | kReal64
  | kReal32
  | kReal16
  | kInt64
  | kInt32
  | kInt16
deriving DecidableEq, Repr

/-- Bytes written by `RNTupleSerializer::SerializeColumnType`
(RNTupleSerialize.cxx:275). -/
def serializeColumnTypeBytes : EColumnType → List Nat
  | .kIndex => uint16Bytes 0x02
  | .kSwitch => uint16Bytes 0x03
  | .kByte => uint16Bytes 0x0D
  | .kBit => uint16Bytes 0x06
  | .kReal64 => uint16Bytes 0x07
  | .kReal32 => uint16Bytes 0x08
  | .kReal16 => uint16Bytes 0x09
  | .kInt64 => uint16Bytes 0x0A
  | .kInt32 => uint16Bytes 0x0B
  | .kInt16 => uint16Bytes 0x0C

/-- `RNTupleSerializer::kFlagRepetitiveField` (RNTupleSerialize.hxx:970). -/
def kFlagRepetitiveField : Nat := 0x01

/-- `RNTupleSerializer::kFlagSortAscColumn` (RNTupleSerialize.hxx:973). -/
def kFlagSortAscColumn : Nat := 0x01

/-- `RNTupleSerializer::kFlagNonNegativeColumn` (RNTupleSerialize.hxx:975). -/
def kFlagNonNegativeColumn : Nat := 0x04

/-- One column as enumerated by the descriptor's `GetColumnIterable` for its
owning field: exactly the data `SerializeColumnsV1` reads from the descriptor
collaborator.  `bitsOnStorage` — Modelled from the spec: the value of the
external helper `RColumnElementBase::GetBitsOnStorage` for this column's type
(`RColumnElement.hxx`, an out-of-scope collaborator mapping type to bit
width), carried here as collaborator-provided data. -/
structure ColumnRec where
  colId : Nat
  fieldId : Nat
  colType : EColumnType
  isSorted : Bool
  bitsOnStorage : Nat
deriving DecidableEq, Repr

/-- The per-field data consumed by `SerializeFieldsV1` and `SerializeColumnsV1`:
the in-memory descriptor id, the versions, structure, repetition count, the
strings (as byte lists) and the field's columns in iteration order. -/
structure FieldRec where
  memId : Nat
  fieldVersion : Nat
  typeVersion : Nat
  fStructure : ENTupleStructure
  nRepetitions : Nat
  fieldName : List Nat
  typeName : List Nat
  fieldDescription : List Nat
  columns : List ColumnRec
deriving DecidableEq, Repr

mutual

/-- The descriptor's field tree: a field together with its direct children in
descriptor order (`GetFieldIterable`). -/
inductive FTree where
  | node : FieldRec → Forest → FTree

/-- A sequence of sibling field trees (mutual with `FTree` so that recursion
over the tree stays structural). -/
inductive Forest where
  | nil : Forest
  | cons : FTree → Forest → Forest

end

/-- Root record of a tree. -/
def FTree.fieldRec : FTree → FieldRec
  | .node r _ => r

/-- Children of a tree. -/
def FTree.children : FTree → Forest
  | .node _ cs => cs

/-- Concatenation of sibling sequences (the queue's push_back loop). -/
def Forest.append : Forest → Forest → Forest
  | .nil, b => b
  | .cons t ts, b => .cons t (Forest.append ts b)

/-- Number of trees in a forest (not counting descendants). -/
def Forest.width : Forest → Nat
  | .nil => 0
  | .cons _ ts => 1 + Forest.width ts

mutual

/-- Total number of fields in a tree, the root included (the value of the
descriptor's `GetNFields` restricted to this subtree). -/
def FTree.countF : FTree → Nat
  | .node _ cs => 1 + Forest.countF cs

/-- Total number of fields in a forest. -/
def Forest.countF : Forest → Nat
  | .nil => 0
  | .cons t ts => FTree.countF t + Forest.countF ts

end

mutual

/-- Total number of columns in a tree (the descriptor's `GetNColumns`
restricted to this subtree). -/
def FTree.countC : FTree → Nat
  | .node r cs => r.columns.length + Forest.countC cs

/-- Total number of columns in a forest. -/
def Forest.countC : Forest → Nat
  | .nil => 0
  | .cons t ts => FTree.countC t + Forest.countC ts

end

/-- Root records of all trees of a forest, in order. -/
def Forest.rootRecs : Forest → List FieldRec
  | .nil => []
  | .cons t ts => t.fieldRec :: Forest.rootRecs ts

/-- Concatenation of the children of all trees of a forest, in order. -/
def Forest.childrenCat : Forest → Forest
  | .nil => .nil
  | .cons (FTree.node _ cs) ts => Forest.append cs (Forest.childrenCat ts)

/-- `ROOT::Experimental::RNTupleDescriptor` as consumed by the header
serializer: its name, description and the field tree hanging off field-zero
(`GetFieldZeroId` / `GetFieldIterable`); strings are byte lists. -/
structure RNTupleDescriptor where
  name : List Nat
  description : List Nat
  fieldZero : FTree

/-! ## Serialization context -/

/-- Insert-or-overwrite on an association list, the behaviour of
`std::map::operator[]` used by the `Map*Id` members. -/
def assocSet : List (Nat × Nat) → Nat → Nat → List (Nat × Nat)
  | [], k, v => [(k, v)]
  | (k0, v0) :: rest, k, v =>
    if k0 = k then (k0, v) :: rest else (k0, v0) :: assocSet rest k v

/-- Lookup on an association list; `none` models the `std::out_of_range`
exception of `std::map::at`. -/
def assocGet : List (Nat × Nat) → Nat → Option Nat
  | [], _ => none
  | (k0, v0) :: rest, k => if k0 = k then some v0 else assocGet rest k

/-- Sequential insertion `assocSet a ms[0] k; assocSet _ ms[1] (k+1); ...` —
the accumulated effect of consecutive `Map*Id` calls on the mem-to-phys map. -/
def assocSetSeq : List (Nat × Nat) → List Nat → Nat → List (Nat × Nat)
  | a, [], _ => a
  | a, m :: ms, k => assocSetSeq (assocSet a m k) ms (k + 1)

/-- `RNTupleSerializer::REnvelopeLink` (RNTupleSerialize.hxx:977). -/
structure REnvelopeLink where
  fUnzippedSize : Nat
  fLocator : RNTupleLocator
deriving DecidableEq, Repr

/-- `RNTupleSerializer::RClusterGroup` (RNTupleSerialize.hxx:989). -/
structure RClusterGroup where
  fNClusters : Nat
  fPageListEnvelopeLink : REnvelopeLink
deriving DecidableEq, Repr

/-- `RNTupleSerializer::RContext` (RNTupleSerialize.hxx:997): header size and
CRC, the cluster-group registry, and the bidirectional id maps (`std::map`
as association lists, the phys-to-mem vectors as plain lists). -/
structure RContext where
  fHeaderSize : Nat := 0
  fHeaderCrc32 : Nat := 0
  fClusterGroups : List RClusterGroup := []
  fMem2PhysFieldIDs : List (Nat × Nat) := []
  fMem2PhysColumnIDs : List (Nat × Nat) := []
  fMem2PhysClusterIDs : List (Nat × Nat) := []
  fPhys2MemFieldIDs : List Nat := []
  fPhys2MemColumnIDs : List Nat := []
  fPhys2MemClusterIDs : List Nat := []
deriving DecidableEq, Repr

/-- `RContext::MapFieldId` (RNTupleSerialize.hxx:1018): the fresh physical id
is the current size of the phys-to-mem vector; both directions are recorded
and the new physical id is returned. -/
def RContext.MapFieldId (ctx : RContext) (memId : Nat) : RContext × Nat :=
  ({ ctx with
      fMem2PhysFieldIDs :=
        assocSet ctx.fMem2PhysFieldIDs memId ctx.fPhys2MemFieldIDs.length,
      fPhys2MemFieldIDs := ctx.fPhys2MemFieldIDs ++ [memId] },
    ctx.fPhys2MemFieldIDs.length)

/-- `RContext::MapColumnId` (RNTupleSerialize.hxx:1024). -/
def RContext.MapColumnId (ctx : RContext) (memId : Nat) : RContext × Nat :=
  ({ ctx with
      fMem2PhysColumnIDs :=
        assocSet ctx.fMem2PhysColumnIDs memId ctx.fPhys2MemColumnIDs.length,
      fPhys2MemColumnIDs := ctx.fPhys2MemColumnIDs ++ [memId] },
    ctx.fPhys2MemColumnIDs.length)

/-- `RContext::GetPhysColumnId` (RNTupleSerialize.hxx:1037): `std::map::at`
lookup, `none` when the key is absent. -/
def RContext.GetPhysColumnId (ctx : RContext) (memId : Nat) : Option Nat :=
  assocGet ctx.fMem2PhysColumnIDs memId

/-- `RContext::SetHeaderSize` (RNTupleSerialize.hxx:1009). -/
def RContext.SetHeaderSize (ctx : RContext) (size : Nat) : RContext :=
  { ctx with fHeaderSize := size }

/-! ## Field and column serialization (header pass) -/

/-- Bytes of one field record frame as emitted by the child loop of
`SerializeFieldsV1` (RNTupleSerialize.cxx:46-67), before the postscript
back-patches the head: record preamble, field version, type version,
physical parent id, structure tag, the flags `u16` (`kFlagRepetitiveField`
with the `u64` repetition count when `GetNRepetitions() > 0`, 0 otherwise),
then field name, type name, the always-empty type alias, and description. -/
def fieldRecordBytes (physParentId : Nat) (f : FieldRec) : List Nat :=
  recordFramePreambleBytes ++
    uint32Bytes f.fieldVersion ++ uint32Bytes f.typeVersion ++
    uint32Bytes physParentId ++ serializeFieldStructureBytes f.fStructure ++
    (if 0 < f.nRepetitions then
      uint16Bytes kFlagRepetitiveField ++ uint64Bytes f.nRepetitions
    else uint16Bytes 0) ++
    stringBytes f.fieldName ++ stringBytes f.typeName ++ stringBytes [] ++
    stringBytes f.fieldDescription

/-- Size-only child loop of `SerializeFieldsV1` (RNTupleSerialize.cxx:46-73)
with a null buffer: for each child record the running `u32` total `size`
grows by the record's byte count, and `SerializeFramePostscript(base, size)`
— note: the source passes the running TOTAL, not this record's size — runs
its size checks (with a null buffer only the checks run). -/
def emitFieldChildrenSize (physParentId : Nat) :
    Forest → Nat → Except SerErr Nat
  | .nil, size => .ok size
  | .cons (FTree.node r _) rest, size => do
    let _ ← framePostscriptSizeCheck
      (toSigned 32 ((size + (fieldRecordBytes physParentId r).length) % 2 ^ 32))
    emitFieldChildrenSize physParentId rest
      ((size + (fieldRecordBytes physParentId r).length) % 2 ^ 32)

/-- Size-only pass of the anonymous-namespace `SerializeFieldsV1`
(RNTupleSerialize.cxx:31) with a null buffer: the id queue starts with
field-zero; each dequeued field is mapped (`MapFieldId`), its children are
emitted in descriptor order and then enqueued.  `fuel` bounds the number of
dequeues; the wrapper passes the total field count, which is exactly the
number of dequeues the C++ loop performs, so the bound never bites. -/
def serializeFieldsV1SizeGo :
    Nat → Forest → RContext → Nat → Except SerErr (Nat × RContext)
  | _, .nil, ctx, size => .ok (size, ctx)
  | 0, .cons _ _, _, _ => .error .unknownId
  | fuel + 1, .cons (FTree.node r cs) rest, ctx, size =>
    match ctx.MapFieldId r.memId with
    | (ctx2, physParentId) => do
      let size2 ← emitFieldChildrenSize physParentId cs size
      serializeFieldsV1SizeGo fuel (Forest.append rest cs) ctx2 size2

/-- `SerializeFieldsV1(desc, context, nullptr)`: the size-only pass on the
whole descriptor, starting from a given context. -/
def SerializeFieldsV1Size (desc : RNTupleDescriptor) (ctx : RContext) :
    Except SerErr (Nat × RContext) :=
  serializeFieldsV1SizeGo (Forest.countF (.cons desc.fieldZero .nil))
    (.cons desc.fieldZero .nil) ctx 0

/-- Real-buffer child loop of `SerializeFieldsV1` (RNTupleSerialize.cxx:46-73):
the source re-reads `base` from the unchanged `buffer` parameter for every
record, so every record is written at the same offset `off`, each
overwriting its predecessor; the postscript is then invoked on that offset
with the running `u32` total as its size argument. -/
def emitFieldChildrenReal (physParentId : Nat) :
    Forest → List Nat → Nat → Nat → Except SerErr (List Nat × Nat)
  | .nil, buf, _, size => .ok (buf, size)
  | .cons (FTree.node r _) rest, buf, off, size => do
    let buf2 ← serializeFramePostscript
      (writeAt buf off (fieldRecordBytes physParentId r)) off
      (toSigned 32 ((size + (fieldRecordBytes physParentId r).length) % 2 ^ 32))
    emitFieldChildrenReal physParentId rest buf2 off
      ((size + (fieldRecordBytes physParentId r).length) % 2 ^ 32)

/-- Real-buffer pass of `SerializeFieldsV1` (RNTupleSerialize.cxx:31), the
queue loop around `emitFieldChildrenReal`. -/
def serializeFieldsV1RealGo :
    Nat → Forest → RContext → List Nat → Nat → Nat →
      Except SerErr (List Nat × Nat × RContext)
  | _, .nil, ctx, buf, _, size => .ok (buf, size, ctx)
  | 0, .cons _ _, _, _, _, _ => .error .unknownId
  | fuel + 1, .cons (FTree.node r cs) rest, ctx, buf, off, size =>
    match ctx.MapFieldId r.memId with
    | (ctx2, physParentId) => do
      let (buf2, size2) ← emitFieldChildrenReal physParentId cs buf off size
      serializeFieldsV1RealGo fuel (Forest.append rest cs) ctx2 buf2 off size2

/-- `SerializeFieldsV1(desc, context, buffer)` with a real buffer, the field
records starting at offset `off` of `buf`. -/
def SerializeFieldsV1Real (desc : RNTupleDescriptor) (ctx : RContext)
    (buf : List Nat) (off : Nat) : Except SerErr (List Nat × Nat × RContext) :=
  serializeFieldsV1RealGo (Forest.countF (.cons desc.fieldZero .nil))
    (.cons desc.fieldZero .nil) ctx buf off 0

/-- Bytes of one column record frame as emitted by `SerializeColumnsV1`
(RNTupleSerialize.cxx:94-112): record preamble, on-disk column type,
bits-on-storage, the physical id looked up for the column's field, and the
flags word (`kFlagSortAscColumn` when sorted, `kFlagNonNegativeColumn` for
Index columns). -/
def columnRecordBytes (physFieldId : Nat) (c : ColumnRec) : List Nat :=
  recordFramePreambleBytes ++ serializeColumnTypeBytes c.colType ++
    uint16Bytes c.bitsOnStorage ++ uint32Bytes physFieldId ++
    uint32Bytes ((if c.isSorted then kFlagSortAscColumn else 0) |||
      (if c.colType = .kIndex then kFlagNonNegativeColumn else 0))

/-- Size-only column loop of `SerializeColumnsV1` (RNTupleSerialize.cxx:94-118)
for one parent field: each column looks up
`context.GetPhysColumnId(c.GetFieldId())` — a `std::map::at` call that
throws when the key is absent, which the argument evaluation performs even
in the size-only pass — runs the postscript size checks on the running
total, and then maps its own id (`MapColumnId`). -/
def emitColumnsSize : List ColumnRec → RContext → Nat → Except SerErr (RContext × Nat)
  | [], ctx, size => .ok (ctx, size)
  | c :: rest, ctx, size =>
    match ctx.GetPhysColumnId c.fieldId with
    | none => .error .unknownId
    | some physFieldId => do
      let _ ← framePostscriptSizeCheck
        (toSigned 32 ((size + (columnRecordBytes physFieldId c).length) % 2 ^ 32))
      emitColumnsSize rest (ctx.MapColumnId c.colId).1
        ((size + (columnRecordBytes physFieldId c).length) % 2 ^ 32)

/-- Size-only pass of `SerializeColumnsV1` (RNTupleSerialize.cxx:79): the same
field-zero queue, emitting each dequeued field's columns and enqueueing its
children. -/
def serializeColumnsV1SizeGo :
    Nat → Forest → RContext → Nat → Except SerErr (Nat × RContext)
  | _, .nil, ctx, size => .ok (size, ctx)
  | 0, .cons _ _, _, _ => .error .unknownId
  | fuel + 1, .cons (FTree.node r cs) rest, ctx, size => do
    match ← emitColumnsSize r.columns ctx size with
    | (ctx2, size2) => serializeColumnsV1SizeGo fuel (Forest.append rest cs) ctx2 size2

/-- `SerializeColumnsV1(desc, context, nullptr)`. -/
def SerializeColumnsV1Size (desc : RNTupleDescriptor) (ctx : RContext) :
    Except SerErr (Nat × RContext) :=
  serializeColumnsV1SizeGo (Forest.countF (.cons desc.fieldZero .nil))
    (.cons desc.fieldZero .nil) ctx 0

/-- Size-only pass of `RNTupleSerializer::SerializeHeaderV1`
(RNTupleSerialize.cxx:750) with a null buffer, which is the pass that
determines the stored header size (the `pos` arithmetic is identical in the
real-buffer pass): envelope preamble, empty feature flags, name,
description, the three list frames — the return value of
`SerializeFieldsV1` is DISCARDED at RNTupleSerialize.cxx:768, so `pos` does
not advance over the field records, while the column sizes are added — and
finally `SetHeaderSize(pos - base)` on the returned context. -/
def SerializeHeaderV1Size (desc : RNTupleDescriptor) : Except SerErr RContext := do
  let (_, ffSize) ← SerializeFeatureFlags [] false
  let pos4 := envelopePreambleBytes.length + ffSize +
    (stringBytes desc.name).length + (stringBytes desc.description).length
  let _ ← listFramePreambleBytes (FTree.countF desc.fieldZero)
  let (_, ctx1) ← SerializeFieldsV1Size desc {}
  let _ ← framePostscriptSizeCheck (toSigned 32 ((pos4 + 8 - pos4) % 2 ^ 32))
  let _ ← listFramePreambleBytes (FTree.countC desc.fieldZero)
  let (colSize, ctx2) ← SerializeColumnsV1Size desc ctx1
  let _ ← framePostscriptSizeCheck (toSigned 32 ((8 + colSize) % 2 ^ 32))
  let _ ← listFramePreambleBytes 0
  let _ ← framePostscriptSizeCheck (toSigned 32 ((8 : Nat) % 2 ^ 32))
  .ok (RContext.SetHeaderSize ctx2 ((pos4 + 8 + 8 + colSize + 8) % 2 ^ 32))

/-! ## Claim-side definitions for C1 (the quantities the claim asserts) -/

/-- Byte count of the field records of a sibling sequence (each record's full
bytes; the parent id is a fixed-width `u32`, so the length does not depend
on its value). -/
def childRecordsLen : Forest → Nat
  | .nil => 0
  | .cons (FTree.node r _) ts => (fieldRecordBytes 0 r).length + childRecordsLen ts

/-- Total bytes of every field record emitted during header serialization:
every field except the descriptor root appears exactly once as a child of a
dequeued parent. -/
def fieldRecordsTotalGo : Nat → Forest → Nat
  | _, .nil => 0
  | 0, .cons _ _ => 0
  | fuel + 1, .cons (FTree.node _ cs) rest =>
    childRecordsLen cs + fieldRecordsTotalGo fuel (Forest.append rest cs)

/-- Byte count of the column records of one field. -/
def columnRecordsLen (cols : List ColumnRec) : Nat :=
  (cols.map (fun c => (columnRecordBytes 0 c).length)).sum

/-- Total bytes of every column record emitted during header serialization. -/
def columnRecordsTotalGo : Nat → Forest → Nat
  | _, .nil => 0
  | 0, .cons _ _ => 0
  | fuel + 1, .cons (FTree.node r cs) rest =>
    columnRecordsLen r.columns + columnRecordsTotalGo fuel (Forest.append rest cs)

/-- Follows the words of claim C1: the total byte length of the emitted
header envelope contents — the sum of the envelope preamble (4), the feature
flags (8), name, description, the complete list frame of field records
(8-byte frame header plus every field record's bytes), the complete list
frame of column records, and the empty alias-column list frame (8). -/
def headerEnvelopeContentsSize (desc : RNTupleDescriptor) : Nat :=
  4 + 8 + (stringBytes desc.name).length + (stringBytes desc.description).length +
    (8 + fieldRecordsTotalGo (FTree.countF desc.fieldZero) (.cons desc.fieldZero .nil)) +
    (8 + columnRecordsTotalGo (FTree.countF desc.fieldZero) (.cons desc.fieldZero .nil)) +
    8

/-! ## Breadth-first orders (claim C6) -/

/-- Dequeue order of the id queue of `SerializeFieldsV1`, as the claim
describes it: field-zero first, then each dequeued parent's children
appended in descriptor order.  `fuel` as in `serializeFieldsV1SizeGo`. -/
def queueOrderGo : Nat → Forest → List FieldRec
  | _, .nil => []
  | 0, .cons _ _ => []
  | fuel + 1, .cons (FTree.node r cs) rest => r :: queueOrderGo fuel (Forest.append rest cs)

/-- Level-by-level breadth-first enumeration of a forest: all roots in order,
then all their children in order, and so on. -/
def levelOrderGo : Nat → Forest → List FieldRec
  | _, .nil => []
  | 0, .cons _ _ => []
  | fuel + 1, .cons t ts =>
    Forest.rootRecs (.cons t ts) ++ levelOrderGo fuel (Forest.childrenCat (.cons t ts))

/-- Breadth-first field order of a forest. -/
def fieldLevelOrder (q : Forest) : List FieldRec := levelOrderGo (Forest.countF q) q

/-! ## Concrete example inputs used by the theorems below -/

/-- A leaf field with the given in-memory id, zero versions, no repetition,
empty strings and no columns. -/
def exLeafField (id : Nat) : FieldRec := ⟨id, 0, 0, .kLeaf, 0, [], [], [], []⟩

/-- Descriptor with empty name and description whose root field has one leaf
child (one emitted field record of 36 bytes, no columns). -/
def exDescOneField : RNTupleDescriptor :=
  ⟨[], [], .node (exLeafField 0) (.cons (.node (exLeafField 1) .nil) .nil)⟩

/-- Descriptor with empty name and description whose root field has two leaf
children (two emitted field records of 36 bytes each, no columns). -/
def exDescTwoFields : RNTupleDescriptor :=
  ⟨[], [], .node (exLeafField 0)
    (.cons (.node (exLeafField 1) .nil) (.cons (.node (exLeafField 2) .nil) .nil))⟩

/-- The context produced by the size-only field pass on `exDescTwoFields`:
physical ids 0, 1, 2 assigned to the memory ids 0, 1, 2 in BFS order. -/
def exRunCtx : RContext :=
  { fMem2PhysFieldIDs := [(0, 0), (1, 1), (2, 2)], fPhys2MemFieldIDs := [0, 1, 2] }

/-- The context returned by `SerializeHeaderV1Size` on `exDescOneField`. -/
def exHeaderCtx : RContext :=
  { fHeaderSize := 44, fMem2PhysFieldIDs := [(0, 0), (1, 1)],
    fPhys2MemFieldIDs := [0, 1] }

/-- Buffer holding a list frame of 12 bytes whose stored `nitems` field is
`2 ^ 28` (bit 28 set). -/
def bigNItemsFrameBuf : List Nat :=
  int32Bytes (-12) ++ uint32Bytes (2 ^ 28) ++ [0, 0, 0, 0]

/-- Buffer holding a well-formed list frame with 3 items. -/
def smallListFrameBuf : List Nat :=
  int32Bytes (-12) ++ uint32Bytes 3 ++ [0, 0, 0, 0]

/-- An envelope buffer whose trailing CRC is valid: the `u32` stored at offset
`bufSize - 4` equals the checksum of the first `bufSize - 4` bytes. -/
def EnvelopeCrcOk (buffer : List Nat) (bufSize : Nat) : Prop :=
  DeserializeUInt32 (buffer.drop (bufSize - 4)) = crc32Of (buffer.take (bufSize - 4))

instance (buffer : List Nat) (bufSize : Nat) : Decidable (EnvelopeCrcOk buffer bufSize) := by
  unfold EnvelopeCrcOk; infer_instance

/-- Envelope buffer with `version_at_write = 0`, `version_min_required = 2`
and a valid trailing CRC. -/
def oldAndNewEnv : List Nat := [0, 0, 2, 0] ++ uint32Bytes (crc32Of [0, 0, 2, 0])

/-- Envelope buffer with both version fields equal to 1 and a valid CRC. -/
def currentVersionEnv : List Nat := [1, 0, 1, 0] ++ uint32Bytes (crc32Of [1, 0, 1, 0])

/-- Flag vectors on which the negate-all-but-last encoding is invertible:
non-empty, every flag a non-negative `i64` value, and every flag before the
last strictly positive (a zero flag in a non-final position is written as 0,
which stops the reader early). -/
def GoodFlags : List Int → Prop
  | [] => False
  | [f] => 0 ≤ f ∧ f < 2 ^ 63
  | f :: g :: rest => 0 < f ∧ f < 2 ^ 63 ∧ GoodFlags (g :: rest)

/-! ## Basic lemmas on the byte primitives -/

theorem fromLE_natLE : ∀ (w n : Nat), fromLE (natLE w n) = n % 256 ^ w := by
  intro w
  induction w with
  | zero => intro n; simp [natLE, fromLE, Nat.mod_one]
  | succ w ih =>
    intro n
    rw [natLE, fromLE, ih]
    rw [Nat.mod_mod_of_dvd _ (by norm_num), pow_succ, mul_comm (256 ^ w) 256]
    rw [Nat.mod_mul]

theorem natLE_length : ∀ (w n : Nat), (natLE w n).length = w := by
  intro w
  induction w with
  | zero => intro n; simp [natLE]
  | succ w ih => intro n; simp [natLE, ih]

theorem natLE_take (w n : Nat) : (natLE w n).take w = natLE w n :=
  List.take_of_length_le (by rw [natLE_length])

theorem int16Bytes_length (v : Int) : (int16Bytes v).length = 2 := by
  unfold int16Bytes; rw [natLE_length]

theorem int32Bytes_length (v : Int) : (int32Bytes v).length = 4 := by
  unfold int32Bytes; rw [natLE_length]

theorem int64Bytes_length (v : Int) : (int64Bytes v).length = 8 := by
  unfold int64Bytes; rw [natLE_length]

theorem uint16Bytes_length (v : Nat) : (uint16Bytes v).length = 2 := by
  unfold uint16Bytes; rw [int16Bytes_length]

theorem uint32Bytes_length (v : Nat) : (uint32Bytes v).length = 4 := by
  unfold uint32Bytes; rw [int32Bytes_length]

theorem uint64Bytes_length (v : Nat) : (uint64Bytes v).length = 8 := by
  unfold uint64Bytes; rw [int64Bytes_length]

theorem natLE_lt_256 (w n : Nat) : ∀ b ∈ natLE w n, b < 256 := by
  induction w generalizing n with
  | zero => simp [natLE]
  | succ w ih =>
    intro b hb
    rw [natLE] at hb
    rcases List.mem_cons.mp hb with h | h
    · omega
    · exact ih _ b h

/-! ## Reduction helpers for fallible results -/

theorem exceptBind_ok {α β : Type} (x : α) (f : α → Except SerErr β) :
    (Except.ok x >>= f : Except SerErr β) = f x := rfl

theorem exceptDotBind_ok {α β : Type} (x : α) (f : α → Except SerErr β) :
    (Except.ok x : Except SerErr α).bind f = f x := rfl

theorem exceptMap_ok {α β : Type} (x : α) (f : α → β) :
    (Except.ok x : Except SerErr α).map f = .ok (f x) := rfl

/-! ## Value lemmas: reading back written integers -/

theorem DeserializeInt32_int32Bytes (v : Int) (rest : List Nat)
    (h1 : -(2 ^ 31) ≤ v) (h2 : v < 2 ^ 31) :
    DeserializeInt32 (int32Bytes v ++ rest) = v := by
  unfold DeserializeInt32 int32Bytes
  rw [List.take_left' (by rw [natLE_length]), fromLE_natLE]
  unfold toSigned
  split <;> omega

theorem DeserializeUInt32_uint32Bytes (v : Nat) (rest : List Nat) (h : v < 2 ^ 32) :
    DeserializeUInt32 (uint32Bytes v ++ rest) = v := by
  unfold DeserializeUInt32 DeserializeInt32 uint32Bytes int32Bytes
  rw [List.take_left' (by rw [natLE_length]), fromLE_natLE]
  unfold toSigned
  split_ifs <;> omega

theorem DeserializeUInt64_uint64Bytes (v : Nat) (rest : List Nat) (h : v < 2 ^ 64) :
    DeserializeUInt64 (uint64Bytes v ++ rest) = v := by
  unfold DeserializeUInt64 DeserializeInt64 uint64Bytes int64Bytes
  rw [List.take_left' (by rw [natLE_length]), fromLE_natLE]
  unfold toSigned
  split_ifs <;> omega

/-- Completing a frame that begins with the record preamble back-patches the
head with `+size` and leaves the payload intact. -/
theorem serializeFramePostscript_record (payload : List Nat) (size : Int)
    (h4 : 4 ≤ size) (h31 : size < 2 ^ 31) :
    serializeFramePostscript (recordFramePreambleBytes ++ payload) 0 size =
      .ok (int32Bytes size ++ payload) := by
  have hm : DeserializeInt32 ((recordFramePreambleBytes ++ payload).drop 0) = 1 := by
    rw [List.drop_zero]
    unfold recordFramePreambleBytes
    exact DeserializeInt32_int32Bytes 1 payload (by norm_num) (by norm_num)
  unfold serializeFramePostscript
  rw [if_neg (by omega), if_neg (by omega), hm, if_neg (by simp), one_mul]
  unfold writeAt
  simp only [List.take_zero, List.nil_append, int32Bytes_length, Nat.zero_add]
  rw [List.drop_left' (by unfold recordFramePreambleBytes; exact int32Bytes_length 1)]

/-- Completing a frame that begins with the list preamble back-patches the
head with `-size` and leaves the `nitems` word and the payload intact. -/
theorem serializeFramePostscript_list (nitems : Nat) (payload : List Nat)
    (size : Int) (h8 : 8 ≤ size) (h31 : size < 2 ^ 31) :
    serializeFramePostscript ((int32Bytes (-1) ++ uint32Bytes nitems) ++ payload)
        0 size =
      .ok (int32Bytes (-size) ++ (uint32Bytes nitems ++ payload)) := by
  have hm : DeserializeInt32
      (((int32Bytes (-1) ++ uint32Bytes nitems) ++ payload).drop 0) = -1 := by
    rw [List.drop_zero, List.append_assoc]
    exact DeserializeInt32_int32Bytes (-1) _ (by norm_num) (by norm_num)
  unfold serializeFramePostscript
  rw [if_neg (by omega), if_neg (by omega), hm,
    if_neg (fun h => absurd h.2 (by omega)), neg_one_mul]
  unfold writeAt
  simp only [List.take_zero, List.nil_append, int32Bytes_length, Nat.zero_add]
  rw [List.append_assoc]
  rw [List.drop_left' (int32Bytes_length (-1))]

/-- Decoding a buffer whose head reads back as `+size` yields a record frame. -/
theorem DeserializeFrame_record (buffer : List Nat) (bufSize size : Nat)
    (hhead : DeserializeInt32 buffer = (size : Int))
    (h4 : 4 ≤ size) (hbs : size ≤ bufSize) :
    DeserializeFrame buffer bufSize = .ok ⟨4, size, 1⟩ := by
  simp only [DeserializeFrame, hhead]
  rw [if_neg (by omega), if_pos (by positivity)]
  simp only [Int.toNat_natCast]
  rw [if_neg (by omega), if_neg (by omega)]

/-! ## Claims C3 and C8 -/

/-- C3 (amended): for every buffer on which `DeserializeFrame` succeeds, the
returned `nitems` is strictly less than `2 ^ 29` — not `2 ^ 28` as claimed:
the read path masks with `(2 << 28) - 1`, which keeps 29 bits.  In the
record-frame case (4 header bytes) `nitems` is 1. -/
theorem claim3_deserialize_frame_nitems_bound (buffer : List Nat) (bufSize : Nat)
    (info : FrameInfo) (h : DeserializeFrame buffer bufSize = .ok info) :
    info.nitems < 2 ^ 29 ∧ (info.hdrSize = 4 → info.nitems = 1) := by
  have hand := Nat.and_le_right (n := DeserializeUInt32 (buffer.drop 4))
    (m := 2 <<< 28 - 1)
  simp only [DeserializeFrame] at h
  split_ifs at h
  · cases h
    exact ⟨by norm_num, fun _ => rfl⟩
  · cases h
    refine ⟨by simpa using (by omega : DeserializeUInt32 (buffer.drop 4) &&&
      (2 <<< 28 - 1) < 2 ^ 29), by intro h4; simp at h4⟩

/-- C3 counterexample: `DeserializeFrame` succeeds on a list frame and returns
`nitems = 2 ^ 28`, which is not `< 2 ^ 28`; the claim that the read path
masks `nitems` to 28 bits is false (the mask `(2 << 28) - 1` keeps 29 bits). -/
theorem claim3_counterexample :
    DeserializeFrame bigNItemsFrameBuf 12 = .ok ⟨8, 12, 2 ^ 28⟩ ∧
    ¬ (2 ^ 28 : Nat) < 2 ^ 28 := by decide

/-- Witness for C3 at a concrete list-frame buffer. -/
theorem claim3_witness :
    (⟨8, 12, 3⟩ : FrameInfo).nitems < 2 ^ 29 ∧
    ((⟨8, 12, 3⟩ : FrameInfo).hdrSize = 4 → (⟨8, 12, 3⟩ : FrameInfo).nitems = 1) :=
  claim3_deserialize_frame_nitems_bound smallListFrameBuf 12 ⟨8, 12, 3⟩ (by decide)

/-- C8 (amended): `DeserializeEnvelope` fails with buffer-too-short for every
buffer of size < 8; with a valid trailing CRC it fails format-too-old exactly
when `version_at_write < 1`, fails format-too-new exactly when
`version_at_write ≥ 1` and `version_min_required > 1` (the too-old gate is
checked first, so a buffer violating both gates reports too-old, contrary to
the claim's unconditional "exactly when" for too-new), and otherwise succeeds
returning 4, the number of preamble bytes consumed. -/
theorem claim8_deserialize_envelope_gates (buffer : List Nat) (bufSize : Nat) :
    (bufSize < 8 → DeserializeEnvelope buffer bufSize = .error .bufferTooShort) ∧
    (8 ≤ bufSize → ¬ EnvelopeCrcOk buffer bufSize →
      DeserializeEnvelope buffer bufSize = .error .checksumMismatch) ∧
    (8 ≤ bufSize → EnvelopeCrcOk buffer bufSize →
      DeserializeEnvelope buffer bufSize =
        if DeserializeUInt16 buffer < 1 then .error .formatTooOld
        else if kEnvelopeCurrentVersion < DeserializeUInt16 (buffer.drop 2) then
          .error .formatTooNew
        else .ok 4) := by
  refine ⟨?_, ?_, ?_⟩
  · intro h
    unfold DeserializeEnvelope
    rw [if_pos h]
  · intro h hcrc
    unfold EnvelopeCrcOk at hcrc
    unfold DeserializeEnvelope VerifyCRC32
    rw [if_neg (by omega), if_neg hcrc]
  · intro h hcrc
    unfold EnvelopeCrcOk at hcrc
    unfold DeserializeEnvelope VerifyCRC32
    rw [if_neg (by omega), if_pos hcrc]

/-- C8 counterexample: on a valid-CRC envelope with `version_at_write = 0` and
`version_min_required = 2`, deserialization fails with format-too-old, not
format-too-new, although `version_min_required > 1`; the claim's "fails with
format-too-new exactly when version_min_required > 1" is false. -/
theorem claim8_counterexample :
    DeserializeUInt16 (oldAndNewEnv.drop 2) = 2 ∧
    DeserializeEnvelope oldAndNewEnv 8 = .error .formatTooOld ∧
    DeserializeEnvelope oldAndNewEnv 8 ≠ .error .formatTooNew := by decide

/-- Witness for C8 on a concrete valid envelope. -/
theorem claim8_witness :
    DeserializeEnvelope currentVersionEnv 8 =
      (if DeserializeUInt16 currentVersionEnv < 1 then Except.error SerErr.formatTooOld
       else if kEnvelopeCurrentVersion < DeserializeUInt16 (currentVersionEnv.drop 2) then
         Except.error SerErr.formatTooNew
       else Except.ok 4) :=
  (claim8_deserialize_envelope_gates currentVersionEnv 8).2.2 (by norm_num) (by decide)

/-- C9: for every integer width in {16, 32, 64}, signed or unsigned, and every
value of that type, deserializing the bytes produced by the corresponding
serialize function returns the value (little-endian two's-complement
round-trip), and each serialize function returns its fixed width (2, 4 or 8)
whether the buffer is null (`false`) or real (`true`), writing that many
bytes exactly when the buffer is real. -/
theorem claim9_primitive_int_roundtrip :
    (∀ v : Int, -(2 ^ 15) ≤ v → v < 2 ^ 15 → DeserializeInt16 (int16Bytes v) = v) ∧
    (∀ v : Int, -(2 ^ 31) ≤ v → v < 2 ^ 31 → DeserializeInt32 (int32Bytes v) = v) ∧
    (∀ v : Int, -(2 ^ 63) ≤ v → v < 2 ^ 63 → DeserializeInt64 (int64Bytes v) = v) ∧
    (∀ v : Nat, v < 2 ^ 16 → DeserializeUInt16 (uint16Bytes v) = v) ∧
    (∀ v : Nat, v < 2 ^ 32 → DeserializeUInt32 (uint32Bytes v) = v) ∧
    (∀ v : Nat, v < 2 ^ 64 → DeserializeUInt64 (uint64Bytes v) = v) ∧
    (∀ (v : Int) (b : Bool),
      (SerializeInt16 v b).2 = 2 ∧ (SerializeInt32 v b).2 = 4 ∧
      (SerializeInt64 v b).2 = 8 ∧
      (SerializeInt16 v b).1.length = (if b then 2 else 0) ∧
      (SerializeInt32 v b).1.length = (if b then 4 else 0) ∧
      (SerializeInt64 v b).1.length = (if b then 8 else 0)) ∧
    (∀ (v : Nat) (b : Bool),
      (SerializeUInt16 v b).2 = 2 ∧ (SerializeUInt32 v b).2 = 4 ∧
      (SerializeUInt64 v b).2 = 8) := by
  refine ⟨?_, ?_, ?_, ?_, ?_, ?_, ?_, ?_⟩
  · intro v h1 h2
    unfold DeserializeInt16 int16Bytes
    rw [natLE_take, fromLE_natLE]
    unfold toSigned
    split <;> omega
  · intro v h1 h2
    unfold DeserializeInt32 int32Bytes
    rw [natLE_take, fromLE_natLE]
    unfold toSigned
    split <;> omega
  · intro v h1 h2
    unfold DeserializeInt64 int64Bytes
    rw [natLE_take, fromLE_natLE]
    unfold toSigned
    split <;> omega
  · intro v hv
    unfold DeserializeUInt16 DeserializeInt16 uint16Bytes int16Bytes
    rw [natLE_take, fromLE_natLE]
    unfold toSigned
    split_ifs <;> omega
  · intro v hv
    unfold DeserializeUInt32 DeserializeInt32 uint32Bytes int32Bytes
    rw [natLE_take, fromLE_natLE]
    unfold toSigned
    split_ifs <;> omega
  · intro v hv
    unfold DeserializeUInt64 DeserializeInt64 uint64Bytes int64Bytes
    rw [natLE_take, fromLE_natLE]
    unfold toSigned
    split_ifs <;> omega
  · intro v b
    refine ⟨rfl, rfl, rfl, ?_, ?_, ?_⟩ <;>
      cases b <;>
        simp [SerializeInt16, SerializeInt32, SerializeInt64, int16Bytes,
          int32Bytes, int64Bytes, natLE_length]
  · intro v b
    exact ⟨rfl, rfl, rfl⟩

/-! ## Claims C4 and C5 -/

theorem DeserializeInt64_int64Bytes (v : Int) (rest : List Nat)
    (h1 : -(2 ^ 63) ≤ v) (h2 : v < 2 ^ 63) :
    DeserializeInt64 (int64Bytes v ++ rest) = v := by
  unfold DeserializeInt64 int64Bytes
  rw [List.take_left' (by rw [natLE_length]), fromLE_natLE]
  unfold toSigned
  split <;> omega

theorem deserializeFeatureFlagsLoop_succ (fuel : Nat) (bytes : List Nat)
    (size : Nat) (acc : List Int) :
    deserializeFeatureFlagsLoop (fuel + 1) bytes size acc =
      if size < 8 then .error .bufferTooShort
      else if DeserializeInt64 bytes < 0 then
        deserializeFeatureFlagsLoop fuel (bytes.drop 8) (size - 8)
          (acc ++ [((DeserializeInt64 bytes).natAbs : Int)])
      else .ok (acc ++ [((DeserializeInt64 bytes).natAbs : Int)]) := rfl

theorem deserializeFeatureFlagsLoop_eq (fuel : Nat) (bytes : List Nat)
    (size : Nat) (acc : List Int) :
    deserializeFeatureFlagsLoop fuel bytes size acc =
      if size < 8 then .error .bufferTooShort
      else if DeserializeInt64 bytes < 0 then
        match fuel with
        | 0 => .error .bufferTooShort
        | fuel + 1 =>
          deserializeFeatureFlagsLoop fuel (bytes.drop 8) (size - 8)
            (acc ++ [((DeserializeInt64 bytes).natAbs : Int)])
      else .ok (acc ++ [((DeserializeInt64 bytes).natAbs : Int)]) := by
  cases fuel <;> rfl

theorem deserializeFeatureFlagsLoop_stop (fuel : Nat) (bytes : List Nat)
    (size : Nat) (acc : List Int) (hsz : ¬ size < 8)
    (hnn : ¬ DeserializeInt64 bytes < 0) :
    deserializeFeatureFlagsLoop fuel bytes size acc =
      .ok (acc ++ [((DeserializeInt64 bytes).natAbs : Int)]) := by
  rw [deserializeFeatureFlagsLoop_eq, if_neg hsz, if_neg hnn]

theorem featureFlagsBytes_ok_of_good :
    ∀ flags : List Int, GoodFlags flags → ∃ bs, featureFlagsBytes flags = .ok bs := by
  intro flags
  induction flags with
  | nil => intro h; exact absurd h id
  | cons f rest ih =>
    intro hg
    cases rest with
    | nil =>
      obtain ⟨h0, _⟩ := hg
      exact ⟨int64Bytes f, by rw [featureFlagsBytes, if_neg (by omega)]⟩
    | cons g rest2 =>
      obtain ⟨h0, h63, hgood⟩ := hg
      obtain ⟨bs2, hbs2⟩ := ih hgood
      refine ⟨int64Bytes (-f) ++ bs2, ?_⟩
      rw [featureFlagsBytes, if_neg (by omega), hbs2]
      rfl

theorem featureFlagsBytes_roundtrip :
    ∀ (flags : List Int) (acc : List Int) (fuel : Nat) (bs : List Nat),
      GoodFlags flags → featureFlagsBytes flags = .ok bs →
      flags.length ≤ fuel + 1 →
      deserializeFeatureFlagsLoop fuel bs (8 * flags.length) acc =
        .ok (acc ++ flags) := by
  intro flags
  induction flags with
  | nil => intro acc fuel bs hg; exact absurd hg id
  | cons f rest ih =>
    intro acc fuel bs hg hser hlen
    cases rest with
    | nil =>
      obtain ⟨hf0, hf63⟩ := hg
      rw [featureFlagsBytes, if_neg (by omega)] at hser
      cases hser
      have hv : DeserializeInt64 (int64Bytes f) = f := by
        simpa using DeserializeInt64_int64Bytes f [] (by omega) hf63
      have hsz : ¬ (8 * (f :: ([] : List Int)).length < 8) := by simp
      have hnn : ¬ DeserializeInt64 (int64Bytes f) < 0 := by rw [hv]; omega
      rw [deserializeFeatureFlagsLoop_stop fuel _ _ acc hsz hnn, hv]
      have habs : (f.natAbs : Int) = f := by omega
      rw [habs]
    | cons g rest2 =>
      obtain ⟨hf0, hf63, hgood⟩ := hg
      rw [featureFlagsBytes, if_neg (by omega)] at hser
      cases hbs2 : featureFlagsBytes (g :: rest2) with
      | error e => rw [hbs2] at hser; exact Except.noConfusion hser
      | ok bs2 =>
        rw [hbs2] at hser
        have hser2 : int64Bytes (-f) ++ bs2 = bs :=
          Except.ok.inj hser
        subst hser2
        cases fuel with
        | zero => simp at hlen
        | succ fuel =>
          have hv : DeserializeInt64 (int64Bytes (-f) ++ bs2) = -f :=
            DeserializeInt64_int64Bytes (-f) bs2 (by omega) (by omega)
          rw [deserializeFeatureFlagsLoop_succ]
          rw [if_neg (by simp only [List.length_cons]; omega)]
          rw [hv, if_pos (by omega)]
          rw [List.drop_left' (int64Bytes_length (-f))]
          have habs : ((-f).natAbs : Int) = f := by omega
          have hsz : 8 * (f :: g :: rest2).length - 8 = 8 * (g :: rest2).length := by
            simp only [List.length_cons]
            omega
          rw [habs, hsz, ih (acc ++ [f]) fuel bs2 hgood hbs2
            (by simp only [List.length_cons] at hlen ⊢; omega)]
          simp

/-- C4 (amended): serializing then deserializing returns the input for every
non-empty list of non-negative 64-bit flags in which every flag before the
last is strictly positive — the original claim fails when a non-final flag is
0, because a 0 is emitted for it (negation of 0) and the reader stops at the
first non-negative value; serializing the empty list and deserializing yields
the single-element list [0]. -/
theorem claim4_feature_flags_roundtrip :
    (∀ flags : List Int, GoodFlags flags →
      (SerializeFeatureFlags flags true).bind
          (fun p => DeserializeFeatureFlags p.1 p.2) =
        .ok (flags, 8 * flags.length)) ∧
    (SerializeFeatureFlags [] true).bind
        (fun p => DeserializeFeatureFlags p.1 p.2) = .ok ([0], 8) := by
  constructor
  · intro flags hg
    have hne : flags ≠ [] := by
      intro h; rw [h] at hg; exact hg
    obtain ⟨bs, hbs⟩ := featureFlagsBytes_ok_of_good flags hg
    unfold SerializeFeatureFlags
    rw [if_neg hne, if_pos rfl, hbs]
    show DeserializeFeatureFlags bs (8 * flags.length) = .ok (flags, 8 * flags.length)
    unfold DeserializeFeatureFlags
    rw [featureFlagsBytes_roundtrip flags [] (8 * flags.length / 8 + 1) bs hg hbs
      (by omega)]
    rfl
  · decide

/-- C4 counterexample: the flag list [0, 1] is non-empty with all flags
non-negative, yet the round trip returns [0]: the 0 is emitted as a
non-negative `i64` and the reader stops there. -/
theorem claim4_counterexample :
    (SerializeFeatureFlags [0, 1] true).bind
        (fun p => DeserializeFeatureFlags p.1 p.2) = .ok ([0], 8) ∧
    (([0], 8) : List Int × Nat) ≠ ([0, 1], 16) := by decide

/-- Witness for C4 at the concrete flag list [2, 0]. -/
theorem claim4_feature_flags_roundtrip_witness :
    (SerializeFeatureFlags [2, 0] true).bind
        (fun p => DeserializeFeatureFlags p.1 p.2) =
      .ok ([2, 0], 8 * ([2, 0] : List Int).length) :=
  claim4_feature_flags_roundtrip.1 [2, 0]
    (by exact ⟨by norm_num, by norm_num, by norm_num, by norm_num⟩)

theorem featureFlagsBytes_negative :
    ∀ flags : List Int, (∃ f ∈ flags, f < 0) →
      featureFlagsBytes flags = .error .featureFlagOutOfBounds := by
  intro flags
  induction flags with
  | nil => intro h; simp at h
  | cons f rest ih =>
    intro h
    obtain ⟨g, hmem, hneg⟩ := h
    cases rest with
    | nil =>
      have : g = f := by simpa using hmem
      subst this
      rw [featureFlagsBytes, if_pos hneg]
    | cons g2 rest2 =>
      by_cases hf : f < 0
      · rw [featureFlagsBytes, if_pos hf]
      · have : g ∈ g2 :: rest2 := by
          rcases List.mem_cons.mp hmem with h | h
          · exact absurd (h ▸ hneg) hf
          · exact h
        rw [featureFlagsBytes, if_neg hf, ih ⟨g, this, hneg⟩]
        rfl

/-- C5 (amended): for every flag list containing a negative value,
`SerializeFeatureFlags` fails with feature-flag-out-of-bounds on a real
buffer — but, contrary to the claim, not on the size-only null-buffer
invocation, which performs no bounds check and returns 8 bytes per flag. -/
theorem claim5_negative_flag_fails_write_only (flags : List Int)
    (hneg : ∃ f ∈ flags, f < 0) :
    SerializeFeatureFlags flags true = .error .featureFlagOutOfBounds ∧
    SerializeFeatureFlags flags false = .ok ([], 8 * flags.length) := by
  have hne : flags ≠ [] := by
    intro h
    subst h
    simp at hneg
  constructor
  · unfold SerializeFeatureFlags
    rw [if_neg hne, if_pos rfl, featureFlagsBytes_negative flags hneg]
    rfl
  · unfold SerializeFeatureFlags
    rw [if_neg hne]
    rfl

/-- C5 counterexample: the size-only (null buffer) invocation on the flag
list [-1] succeeds and returns 8, it does not fail with
feature-flag-out-of-bounds as the claim asserts for every invocation. -/
theorem claim5_counterexample :
    SerializeFeatureFlags [-1] false = .ok ([], 8) ∧
    SerializeFeatureFlags [-1] false ≠ .error .featureFlagOutOfBounds := by decide

/-- Witness for C5 at the concrete flag list [-1]. -/
theorem claim5_negative_flag_fails_write_only_witness :
    SerializeFeatureFlags [-1] true = .error .featureFlagOutOfBounds ∧
    SerializeFeatureFlags [-1] false = .ok ([], 8 * ([-1] : List Int).length) :=
  claim5_negative_flag_fails_write_only [-1]
    ⟨-1, List.mem_singleton.mpr rfl, by norm_num⟩

/-- Witness for C9 at concrete inputs. -/
theorem claim9_primitive_int_roundtrip_witness :
    DeserializeInt16 (int16Bytes (-5)) = -5 ∧
    DeserializeUInt32 (uint32Bytes 168496141) = 168496141 :=
  ⟨claim9_primitive_int_roundtrip.1 (-5) (by norm_num) (by norm_num),
   claim9_primitive_int_roundtrip.2.2.2.2.1 168496141 (by norm_num)⟩

/-! ## Claims C1 and C2 -/

theorem columnRecordBytes_length (physFieldId : Nat) (c : ColumnRec) :
    (columnRecordBytes physFieldId c).length = 16 := by
  have h1 : (serializeColumnTypeBytes c.colType).length = 2 := by
    cases c.colType <;> simp [serializeColumnTypeBytes, uint16Bytes_length]
  unfold columnRecordBytes recordFramePreambleBytes
  simp [List.length_append, int32Bytes_length, uint16Bytes_length,
    uint32Bytes_length, h1]

theorem emitColumnsSize_size :
    ∀ (cols : List ColumnRec) (ctx : RContext) (size : Nat) (ctx2 : RContext)
      (size2 : Nat), size < 2 ^ 32 →
      emitColumnsSize cols ctx size = .ok (ctx2, size2) →
      size2 = (size + columnRecordsLen cols) % 2 ^ 32 := by
  intro cols
  induction cols with
  | nil =>
    intro ctx size ctx2 size2 hlt h
    cases h
    simp only [columnRecordsLen, List.map_nil, List.sum_nil]
    omega
  | cons c rest ih =>
    intro ctx size ctx2 size2 hlt h
    cases hpid : ctx.GetPhysColumnId c.fieldId with
    | none =>
      rw [show emitColumnsSize (c :: rest) ctx size = .error .unknownId from by
        show (match ctx.GetPhysColumnId c.fieldId with
          | none => (.error .unknownId : Except SerErr (RContext × Nat))
          | some physFieldId =>
            (framePostscriptSizeCheck (toSigned 32
                ((size + (columnRecordBytes physFieldId c).length) % 2 ^ 32))).bind
              (fun _ => emitColumnsSize rest (ctx.MapColumnId c.colId).1
                ((size + (columnRecordBytes physFieldId c).length) % 2 ^ 32))) = _
        rw [hpid]] at h
      exact Except.noConfusion h
    | some physFieldId =>
      rw [show emitColumnsSize (c :: rest) ctx size =
        (framePostscriptSizeCheck (toSigned 32
            ((size + (columnRecordBytes physFieldId c).length) % 2 ^ 32))).bind
          (fun _ => emitColumnsSize rest (ctx.MapColumnId c.colId).1
            ((size + (columnRecordBytes physFieldId c).length) % 2 ^ 32)) from by
        show (match ctx.GetPhysColumnId c.fieldId with
          | none => (.error .unknownId : Except SerErr (RContext × Nat))
          | some physFieldId =>
            (framePostscriptSizeCheck (toSigned 32
                ((size + (columnRecordBytes physFieldId c).length) % 2 ^ 32))).bind
              (fun _ => emitColumnsSize rest (ctx.MapColumnId c.colId).1
                ((size + (columnRecordBytes physFieldId c).length) % 2 ^ 32))) = _
        rw [hpid]] at h
      cases hchk : framePostscriptSizeCheck (toSigned 32
          ((size + (columnRecordBytes physFieldId c).length) % 2 ^ 32)) with
      | error e => rw [hchk] at h; exact Except.noConfusion h
      | ok u =>
        rw [hchk, exceptDotBind_ok] at h
        have h2 := ih (ctx.MapColumnId c.colId).1
          ((size + (columnRecordBytes physFieldId c).length) % 2 ^ 32) ctx2 size2
          (by omega) h
        have hlen := columnRecordBytes_length physFieldId c
        have hlen0 := columnRecordBytes_length 0 c
        rw [show columnRecordsLen (c :: rest) =
          (columnRecordBytes 0 c).length + columnRecordsLen rest from by
            simp [columnRecordsLen]]
        omega

theorem serializeColumnsV1SizeGo_nil (fuel : Nat) (ctx : RContext) (size : Nat) :
    serializeColumnsV1SizeGo fuel .nil ctx size = .ok (size, ctx) := by
  cases fuel <;> rfl

theorem columnRecordsTotalGo_nil (fuel : Nat) : columnRecordsTotalGo fuel .nil = 0 := by
  cases fuel <;> rfl

theorem serializeColumnsV1SizeGo_cons (fuel : Nat) (r : FieldRec) (cs rest : Forest)
    (ctx : RContext) (size : Nat) :
    serializeColumnsV1SizeGo (fuel + 1) (.cons (.node r cs) rest) ctx size =
      (emitColumnsSize r.columns ctx size).bind
        (fun p => serializeColumnsV1SizeGo fuel (rest.append cs) p.1 p.2) := rfl

theorem serializeColumnsV1SizeGo_size :
    ∀ (fuel : Nat) (q : Forest) (ctx : RContext) (size s : Nat) (ctx2 : RContext),
      size < 2 ^ 32 →
      serializeColumnsV1SizeGo fuel q ctx size = .ok (s, ctx2) →
      s = (size + columnRecordsTotalGo fuel q) % 2 ^ 32 := by
  intro fuel
  induction fuel with
  | zero =>
    intro q ctx size s ctx2 hlt h
    cases q with
    | nil =>
      rw [serializeColumnsV1SizeGo_nil] at h
      cases h
      rw [columnRecordsTotalGo_nil]
      omega
    | cons t ts => exact Except.noConfusion h
  | succ fuel ih =>
    intro q ctx size s ctx2 hlt h
    cases q with
    | nil =>
      rw [serializeColumnsV1SizeGo_nil] at h
      cases h
      rw [columnRecordsTotalGo_nil]
      omega
    | cons t ts =>
      cases t with
      | node r cs =>
        rw [serializeColumnsV1SizeGo_cons] at h
        cases hemit : emitColumnsSize r.columns ctx size with
        | error e => rw [hemit] at h; exact Except.noConfusion h
        | ok p =>
          obtain ⟨ctxm, sizem⟩ := p
          rw [hemit, exceptDotBind_ok] at h
          have h1 := emitColumnsSize_size r.columns ctx size ctxm sizem hlt hemit
          have h2 := ih (ts.append cs) ctxm sizem s ctx2 (by omega) h
          rw [show columnRecordsTotalGo (fuel + 1) (.cons (.node r cs) ts) =
            columnRecordsLen r.columns + columnRecordsTotalGo fuel (ts.append cs)
            from rfl]
          omega

/-- C1 (code bug): the claim — and spec section 4.8 — say the context stores
the total byte length of the emitted header envelope contents, but
`SerializeHeaderV1` discards the return value of `SerializeFieldsV1`
(RNTupleSerialize.cxx:768; the parallel `SerializeColumnsV1` return at line
773 is added), so the stored size falls short of the envelope contents by
exactly the field records' bytes: for every descriptor on which the size
pass succeeds, stored size + field-record bytes ≡ envelope contents
(mod 2^32).  On the one-field descriptor the code stores 44 while the
envelope contents — with the 36-byte field record — total 80. -/
theorem claim1_header_size_omits_field_records :
    (∀ (desc : RNTupleDescriptor) (ctxOut : RContext),
      SerializeHeaderV1Size desc = .ok ctxOut →
      (ctxOut.fHeaderSize +
          fieldRecordsTotalGo (FTree.countF desc.fieldZero)
            (.cons desc.fieldZero .nil)) % 2 ^ 32 =
        headerEnvelopeContentsSize desc % 2 ^ 32) ∧
    (SerializeHeaderV1Size exDescOneField).map RContext.fHeaderSize = .ok 44 ∧
    headerEnvelopeContentsSize exDescOneField = 80 ∧
    fieldRecordsTotalGo (FTree.countF exDescOneField.fieldZero)
      (.cons exDescOneField.fieldZero .nil) = 36 ∧
    (44 : Nat) ≠ 80 := by
  refine ⟨?_, by decide, by decide, by decide, by decide⟩
  intro desc ctxOut h
  simp only [SerializeHeaderV1Size] at h
  rw [show SerializeFeatureFlags [] false = Except.ok (([] : List Nat), 8)
    from rfl] at h
  simp only [exceptBind_ok] at h
  cases hlf1 : listFramePreambleBytes (FTree.countF desc.fieldZero) with
  | error e => rw [hlf1] at h; exact Except.noConfusion h
  | ok bs1 =>
    rw [hlf1] at h
    simp only [exceptBind_ok] at h
    cases hfields : SerializeFieldsV1Size desc {} with
    | error e => rw [hfields] at h; exact Except.noConfusion h
    | ok p1 =>
      obtain ⟨fieldsSize, ctx1⟩ := p1
      rw [hfields] at h
      simp only [exceptBind_ok] at h
      have hx : ∀ x : Nat, x + 8 - x = 8 := fun x => by omega
      rw [hx] at h
      rw [show framePostscriptSizeCheck (toSigned 32 (8 % 2 ^ 32)) = Except.ok ()
        from rfl] at h
      simp only [exceptBind_ok] at h
      cases hlf2 : listFramePreambleBytes (FTree.countC desc.fieldZero) with
      | error e => rw [hlf2] at h; exact Except.noConfusion h
      | ok bs2 =>
        rw [hlf2] at h
        simp only [exceptBind_ok] at h
        cases hcols : SerializeColumnsV1Size desc ctx1 with
        | error e => rw [hcols] at h; exact Except.noConfusion h
        | ok p2 =>
          obtain ⟨colSize, ctx2⟩ := p2
          rw [hcols] at h
          simp only [exceptBind_ok] at h
          cases hchk : framePostscriptSizeCheck (toSigned 32 ((8 + colSize) % 2 ^ 32)) with
          | error e => rw [hchk] at h; exact Except.noConfusion h
          | ok u =>
            rw [hchk] at h
            simp only [exceptBind_ok] at h
            cases h
            have hcount : Forest.countF (.cons desc.fieldZero .nil) =
                FTree.countF desc.fieldZero := by
              show FTree.countF desc.fieldZero + 0 = _
              omega
            have hcol : colSize = (0 + columnRecordsTotalGo
                (Forest.countF (.cons desc.fieldZero .nil))
                (.cons desc.fieldZero .nil)) % 2 ^ 32 :=
              serializeColumnsV1SizeGo_size _ _ ctx1 0 colSize ctx2 (by norm_num)
                hcols
            rw [hcount] at hcol
            show (((envelopePreambleBytes.length + 8 +
                (stringBytes desc.name).length +
                (stringBytes desc.description).length + 8 + 8 + colSize + 8) %
                2 ^ 32) +
                fieldRecordsTotalGo (FTree.countF desc.fieldZero)
                  (.cons desc.fieldZero .nil)) % 2 ^ 32 =
              headerEnvelopeContentsSize desc % 2 ^ 32
            rw [show headerEnvelopeContentsSize desc =
              4 + 8 + (stringBytes desc.name).length +
                (stringBytes desc.description).length +
                (8 + fieldRecordsTotalGo (FTree.countF desc.fieldZero)
                  (.cons desc.fieldZero .nil)) +
                (8 + columnRecordsTotalGo (FTree.countF desc.fieldZero)
                  (.cons desc.fieldZero .nil)) + 8 from rfl]
            rw [show envelopePreambleBytes.length = 4 from rfl]
            omega

/-- Witness for C1's general conjunct at the one-field descriptor. -/
theorem claim1_header_size_omits_field_records_witness :
    (exHeaderCtx.fHeaderSize +
        fieldRecordsTotalGo (FTree.countF exDescOneField.fieldZero)
          (.cons exDescOneField.fieldZero .nil)) % 2 ^ 32 =
      headerEnvelopeContentsSize exDescOneField % 2 ^ 32 :=
  claim1_header_size_omits_field_records.1 exDescOneField exHeaderCtx (by decide)

/-- C2 (code bug): the claim — and spec section 8, properties 4 and 5 — say
every record frame's first 4 bytes equal its own size, including each
per-field record frame, but `SerializeFieldsV1` passes the running total of
all records emitted so far to `SerializeFramePostscript`
(RNTupleSerialize.cxx:69-70) and re-reads the frame base from the unchanged
`buffer` parameter (line 47), so the records overwrite one another at the
same offset and the surviving head carries the cumulative size: with two
36-byte field records the head reads 72, not 36. -/
theorem claim2_field_record_head_not_own_size :
    (∀ (payload : List Nat) (size : Int), 4 ≤ size → size < 2 ^ 31 →
      serializeFramePostscript (recordFramePreambleBytes ++ payload) 0 size =
        .ok (int32Bytes size ++ payload)) ∧
    (∀ (nitems : Nat) (bs payload : List Nat) (size : Int),
      listFramePreambleBytes nitems = .ok bs → 8 ≤ size → size < 2 ^ 31 →
      serializeFramePostscript (bs ++ payload) 0 size =
        .ok (int32Bytes (-size) ++ (uint32Bytes nitems ++ payload))) ∧
    (SerializeFieldsV1Real exDescTwoFields {} (List.replicate 72 0) 0).map
        (fun r => (r.1.take 4, r.2.1)) = .ok (int32Bytes 72, 72) ∧
    (fieldRecordBytes 0 (exLeafField 2)).length = 36 ∧
    int32Bytes 72 ≠ int32Bytes 36 := by
  refine ⟨serializeFramePostscript_record, ?_, by decide, by decide, by decide⟩
  intro nitems bs payload size hbs h8 h31
  unfold listFramePreambleBytes at hbs
  split_ifs at hbs
  cases hbs
  exact serializeFramePostscript_list nitems payload size h8 h31

/-- Witness for C2's general record-frame conjunct on a 4-byte payload with
frame size 8. -/
theorem claim2_field_record_head_not_own_size_witness :
    serializeFramePostscript (recordFramePreambleBytes ++ [0, 0, 0, 0]) 0 8 =
      .ok (int32Bytes 8 ++ [0, 0, 0, 0]) :=
  claim2_field_record_head_not_own_size.1 [0, 0, 0, 0] 8 (by norm_num)
    (by norm_num)

/-! ## Claim C6: breadth-first id assignment -/

theorem Forest.countF_append : ∀ a b : Forest,
    (Forest.append a b).countF = a.countF + b.countF
  | .nil, b => by
    show b.countF = 0 + b.countF
    omega
  | .cons t ts, b => by
    show FTree.countF t + (ts.append b).countF = FTree.countF t + ts.countF + b.countF
    rw [Forest.countF_append ts b]
    omega

theorem Forest.countF_cons_pos (t : FTree) (ts : Forest) :
    1 ≤ (Forest.cons t ts).countF := by
  cases t with
  | node r cs =>
    show 1 ≤ 1 + cs.countF + ts.countF
    omega

theorem Forest.append_nil : ∀ a : Forest, a.append .nil = a
  | .nil => rfl
  | .cons t ts => by
    show Forest.cons t (ts.append .nil) = Forest.cons t ts
    rw [Forest.append_nil ts]

theorem Forest.append_assoc : ∀ a b c : Forest,
    (a.append b).append c = a.append (b.append c)
  | .nil, _, _ => rfl
  | .cons t ts, b, c => by
    show Forest.cons t ((ts.append b).append c) = Forest.cons t (ts.append (b.append c))
    rw [Forest.append_assoc ts b c]

theorem Forest.countF_childrenCat : ∀ q : Forest,
    q.countF = q.width + q.childrenCat.countF
  | .nil => rfl
  | .cons (FTree.node r cs) ts => by
    have h := Forest.countF_childrenCat ts
    show 1 + cs.countF + ts.countF =
      (1 + ts.width) + (cs.append ts.childrenCat).countF
    rw [Forest.countF_append]
    omega

theorem queueOrderGo_nil (fuel : Nat) : queueOrderGo fuel .nil = [] := by
  cases fuel <;> rfl

theorem levelOrderGo_nil (fuel : Nat) : levelOrderGo fuel .nil = [] := by
  cases fuel <;> rfl

theorem queueOrderGo_append : ∀ (a : Forest) (fuel : Nat) (b : Forest),
    (a.append b).countF ≤ fuel →
    queueOrderGo fuel (a.append b) =
      a.rootRecs ++ queueOrderGo (fuel - a.width) (b.append a.childrenCat)
  | .nil, fuel, b => by
    intro hc
    show queueOrderGo fuel b = [] ++ queueOrderGo (fuel - 0) (b.append .nil)
    rw [Forest.append_nil, Nat.sub_zero, List.nil_append]
  | .cons (FTree.node r cs) ts, fuel, b => by
    intro hc
    cases fuel with
    | zero =>
      exfalso
      have h1 := Forest.countF_cons_pos (FTree.node r cs) (ts.append b)
      have h2 : Forest.append (.cons (.node r cs) ts) b =
          .cons (.node r cs) (ts.append b) := rfl
      rw [h2] at hc
      omega
    | succ f2 =>
      show r :: queueOrderGo f2 ((Forest.append ts b).append cs) = _
      rw [Forest.append_assoc]
      have hc2 : (Forest.append (.cons (.node r cs) ts) b).countF =
          1 + cs.countF + ts.countF + b.countF := by
        rw [Forest.countF_append]
        show 1 + cs.countF + ts.countF + b.countF = _
        omega
      have hcount : (ts.append (b.append cs)).countF ≤ f2 := by
        rw [Forest.countF_append, Forest.countF_append]
        omega
      rw [queueOrderGo_append ts f2 (b.append cs) hcount]
      show r :: (ts.rootRecs ++ _) =
        (r :: ts.rootRecs) ++ queueOrderGo (f2 + 1 - (1 + ts.width))
          (b.append (cs.append ts.childrenCat))
      rw [List.cons_append, ← Forest.append_assoc]
      have hfuel : f2 - ts.width = f2 + 1 - (1 + ts.width) := by omega
      rw [hfuel]

theorem queueOrderGo_eq_levelOrderGo :
    ∀ (n f1 f2 : Nat) (q : Forest), q.countF ≤ n → q.countF ≤ f1 → q.countF ≤ f2 →
      queueOrderGo f1 q = levelOrderGo f2 q := by
  intro n
  induction n with
  | zero =>
    intro f1 f2 q hn h1 h2
    cases q with
    | nil => rw [queueOrderGo_nil, levelOrderGo_nil]
    | cons t ts =>
      exfalso
      have := Forest.countF_cons_pos t ts
      omega
  | succ n ih =>
    intro f1 f2 q hn h1 h2
    cases q with
    | nil => rw [queueOrderGo_nil, levelOrderGo_nil]
    | cons t ts =>
      have hpos := Forest.countF_cons_pos t ts
      cases f1 with
      | zero => omega
      | succ g1 =>
        cases f2 with
        | zero => omega
        | succ g2 =>
          have hq := queueOrderGo_append (Forest.cons t ts) (g1 + 1) .nil
            (by rw [Forest.append_nil]; omega)
          rw [Forest.append_nil] at hq
          rw [hq]
          show _ = (Forest.cons t ts).rootRecs ++
            levelOrderGo g2 (Forest.cons t ts).childrenCat
          have hcc := Forest.countF_childrenCat (Forest.cons t ts)
          have hwpos : 1 ≤ (Forest.cons t ts).width := by
            simp [Forest.width]
          rw [ih (g1 + 1 - (Forest.cons t ts).width) g2
            ((Forest.nil).append (Forest.cons t ts).childrenCat)
            (by simp only [Forest.append]; omega)
            (by simp only [Forest.append]; omega)
            (by simp only [Forest.append]; omega)]
          simp only [Forest.append]

theorem queueOrderGo_length : ∀ (fuel : Nat) (q : Forest), q.countF ≤ fuel →
    (queueOrderGo fuel q).length = q.countF := by
  intro fuel
  induction fuel with
  | zero =>
    intro q hc
    cases q with
    | nil => rfl
    | cons t ts => exact absurd hc (by have := Forest.countF_cons_pos t ts; omega)
  | succ fuel ih =>
    intro q hc
    cases q with
    | nil => rfl
    | cons t ts =>
      cases t with
      | node r cs =>
        show (r :: queueOrderGo fuel (ts.append cs)).length = _
        rw [List.length_cons, ih (ts.append cs) (by
          simp only [Forest.countF, FTree.countF, Forest.countF_append] at hc ⊢
          omega)]
        simp only [Forest.countF, FTree.countF, Forest.countF_append]
        omega

theorem serializeFieldsV1SizeGo_nil (fuel : Nat) (ctx : RContext) (size : Nat) :
    serializeFieldsV1SizeGo fuel .nil ctx size = .ok (size, ctx) := by
  cases fuel <;> rfl

theorem serializeFieldsV1SizeGo_cons (fuel : Nat) (r : FieldRec) (cs rest : Forest)
    (ctx : RContext) (size : Nat) :
    serializeFieldsV1SizeGo (fuel + 1) (.cons (.node r cs) rest) ctx size =
      (emitFieldChildrenSize (ctx.MapFieldId r.memId).2 cs size).bind
        (fun size2 => serializeFieldsV1SizeGo fuel (rest.append cs)
          (ctx.MapFieldId r.memId).1 size2) := rfl

theorem serializeFieldsV1SizeGo_maps :
    ∀ (fuel : Nat) (q : Forest) (ctx : RContext) (size s : Nat) (ctx2 : RContext),
      q.countF ≤ fuel →
      serializeFieldsV1SizeGo fuel q ctx size = .ok (s, ctx2) →
      ctx2.fPhys2MemFieldIDs =
          ctx.fPhys2MemFieldIDs ++ (queueOrderGo fuel q).map FieldRec.memId ∧
      ctx2.fMem2PhysFieldIDs =
          assocSetSeq ctx.fMem2PhysFieldIDs
            ((queueOrderGo fuel q).map FieldRec.memId)
            ctx.fPhys2MemFieldIDs.length := by
  intro fuel
  induction fuel with
  | zero =>
    intro q ctx size s ctx2 hc hrun
    cases q with
    | nil =>
      cases hrun
      simp [queueOrderGo_nil, assocSetSeq]
    | cons t ts => exact absurd hc (by have := Forest.countF_cons_pos t ts; omega)
  | succ fuel ih =>
    intro q ctx size s ctx2 hc hrun
    cases q with
    | nil =>
      rw [serializeFieldsV1SizeGo_nil] at hrun
      cases hrun
      simp [queueOrderGo_nil, assocSetSeq]
    | cons t ts =>
      cases t with
      | node r cs =>
        rw [serializeFieldsV1SizeGo_cons] at hrun
        cases hemit : emitFieldChildrenSize (ctx.MapFieldId r.memId).2 cs size with
        | error e => rw [hemit] at hrun; exact Except.noConfusion hrun
        | ok size2 =>
          rw [hemit, exceptDotBind_ok] at hrun
          have hcount : (ts.append cs).countF ≤ fuel := by
            simp only [Forest.countF, FTree.countF, Forest.countF_append] at hc ⊢
            omega
          obtain ⟨h1, h2⟩ := ih (ts.append cs) (ctx.MapFieldId r.memId).1 size2 s ctx2
            hcount hrun
          constructor
          · rw [h1]
            show ctx.fPhys2MemFieldIDs ++ [r.memId] ++ _ = _
            rw [List.append_assoc]
            rfl
          · rw [h2]
            show assocSetSeq (assocSet ctx.fMem2PhysFieldIDs r.memId
              ctx.fPhys2MemFieldIDs.length) _ (ctx.fPhys2MemFieldIDs ++ [r.memId]).length = _
            rw [List.length_append, List.length_singleton]
            rfl

theorem assocGet_assocSet_self : ∀ (a : List (Nat × Nat)) (k v : Nat),
    assocGet (assocSet a k v) k = some v := by
  intro a k v
  induction a with
  | nil => simp [assocSet, assocGet]
  | cons p rest ih =>
    by_cases h : p.1 = k
    · simp [assocSet, assocGet, h]
    · simp [assocSet, assocGet, h, ih]

theorem assocGet_assocSet_other : ∀ (a : List (Nat × Nat)) (k v k2 : Nat),
    k ≠ k2 → assocGet (assocSet a k v) k2 = assocGet a k2 := by
  intro a k v k2 hne
  induction a with
  | nil => simp [assocSet, assocGet, hne]
  | cons p rest ih =>
    by_cases h : p.1 = k
    · simp [assocSet, assocGet, h, hne]
    · simp only [assocSet, if_neg h, assocGet]
      by_cases h2 : p.1 = k2
      · simp [h2]
      · simp [h2, ih]

theorem assocGet_assocSetSeq_notmem : ∀ (ms : List Nat) (a : List (Nat × Nat)) (k m : Nat),
    m ∉ ms → assocGet (assocSetSeq a ms k) m = assocGet a m := by
  intro ms
  induction ms with
  | nil => intro a k m _; rfl
  | cons m0 ms2 ih =>
    intro a k m hmem
    show assocGet (assocSetSeq (assocSet a m0 k) ms2 (k + 1)) m = _
    rw [ih (assocSet a m0 k) (k + 1) m (by simp at hmem; exact hmem.2)]
    exact assocGet_assocSet_other a m0 k m (by simp at hmem; omega)

theorem assocGet_assocSetSeq_nodup : ∀ (ms : List Nat) (a : List (Nat × Nat)) (k : Nat),
    ms.Nodup → ∀ (i m : Nat), ms[i]? = some m →
      assocGet (assocSetSeq a ms k) m = some (k + i) := by
  intro ms
  induction ms with
  | nil => intro a k _ i m h; simp at h
  | cons m0 ms2 ih =>
    intro a k hnd i m hget
    have hnotmem : m0 ∉ ms2 := (List.nodup_cons.mp hnd).1
    show assocGet (assocSetSeq (assocSet a m0 k) ms2 (k + 1)) m = _
    cases i with
    | zero =>
      rw [List.getElem?_cons_zero] at hget
      cases hget
      rw [assocGet_assocSetSeq_notmem ms2 _ (k + 1) m0 hnotmem,
        assocGet_assocSet_self, Nat.add_zero]
    | succ j =>
      rw [List.getElem?_cons_succ] at hget
      rw [ih (assocSet a m0 k) (k + 1) (List.nodup_cons.mp hnd).2 j m hget]
      rw [show k + 1 + j = k + (j + 1) by omega]

/-- C6: the physical field ids assigned during header serialization form
exactly the sequence `0, 1, ..., n_fields - 1`, assigned in breadth-first
order from field-zero (the level-by-level order `fieldLevelOrder`); each
`MapFieldId` call appends to the phys-to-mem vector and returns the next
sequential id — so an id, once assigned, never changes — and under distinct
in-memory ids the final map sends the i-th BFS field to i. -/
theorem claim6_field_ids_assigned_bfs (desc : RNTupleDescriptor) (s : Nat)
    (ctx : RContext)
    (hrun : SerializeFieldsV1Size desc {} = .ok (s, ctx))
    (hnodup : ((fieldLevelOrder (.cons desc.fieldZero .nil)).map FieldRec.memId).Nodup) :
    ctx.fPhys2MemFieldIDs =
        (fieldLevelOrder (.cons desc.fieldZero .nil)).map FieldRec.memId ∧
    ctx.fPhys2MemFieldIDs.length = Forest.countF (.cons desc.fieldZero .nil) ∧
    (∀ (ctx2 : RContext) (m : Nat),
      ((ctx2.MapFieldId m).1).fPhys2MemFieldIDs = ctx2.fPhys2MemFieldIDs ++ [m] ∧
      (ctx2.MapFieldId m).2 = ctx2.fPhys2MemFieldIDs.length) ∧
    (∀ (i m : Nat),
      ((fieldLevelOrder (.cons desc.fieldZero .nil)).map FieldRec.memId)[i]? = some m →
      assocGet ctx.fMem2PhysFieldIDs m = some i) := by
  have hq : queueOrderGo (Forest.countF (.cons desc.fieldZero .nil))
      (.cons desc.fieldZero .nil) = fieldLevelOrder (.cons desc.fieldZero .nil) :=
    queueOrderGo_eq_levelOrderGo (Forest.countF (.cons desc.fieldZero .nil)) _ _ _
      le_rfl le_rfl le_rfl
  obtain ⟨h1, h2⟩ := serializeFieldsV1SizeGo_maps _ _ {} 0 s ctx le_rfl hrun
  rw [hq] at h1 h2
  simp only [List.nil_append] at h1
  refine ⟨h1, ?_, ?_, ?_⟩
  · rw [h1, List.length_map, ← hq]
    exact queueOrderGo_length _ _ le_rfl
  · intro ctx2 m
    exact ⟨rfl, rfl⟩
  · intro i m hget
    rw [h2]
    show assocGet (assocSetSeq [] _ 0) m = _
    rw [assocGet_assocSetSeq_nodup _ [] 0 hnodup i m hget]
    rw [Nat.zero_add]

/-- Witness for C6 on the two-field descriptor: the run succeeds with size 72
and the context assigning ids 0, 1, 2 in BFS order. -/
theorem claim6_field_ids_assigned_bfs_witness :
    exRunCtx.fPhys2MemFieldIDs =
        (fieldLevelOrder (.cons exDescTwoFields.fieldZero .nil)).map FieldRec.memId ∧
    exRunCtx.fPhys2MemFieldIDs.length =
        Forest.countF (.cons exDescTwoFields.fieldZero .nil) ∧
    (∀ (ctx2 : RContext) (m : Nat),
      ((ctx2.MapFieldId m).1).fPhys2MemFieldIDs = ctx2.fPhys2MemFieldIDs ++ [m] ∧
      (ctx2.MapFieldId m).2 = ctx2.fPhys2MemFieldIDs.length) ∧
    (∀ (i m : Nat),
      ((fieldLevelOrder (.cons exDescTwoFields.fieldZero .nil)).map
        FieldRec.memId)[i]? = some m →
      assocGet exRunCtx.fMem2PhysFieldIDs m = some i) :=
  claim6_field_ids_assigned_bfs exDescTwoFields 72 exRunCtx (by decide) (by decide)

/-! ## Claim C7 -/

/-- C7 (amended): for every cluster summary with `n_entries < 2 ^ 63`,
`column_group_id` in `[-1, 2 ^ 31)` and — the correction — `n_entries ≥ 1`
whenever `column_group_id ≥ 0` (at `n_entries = 0` the negated count is
written as 0, which is non-negative, so decoding loses the column group and
returns `column_group_id = -1`), serializing with `SerializeClusterSummary`
and deserializing with `DeserializeClusterSummary` returns an equal summary;
in the encoding, `n_entries` is written negated followed by `column_group_id`
exactly when `column_group_id ≥ 0`, and otherwise `n_entries` is written
verbatim and decoding yields `column_group_id = -1`. -/
theorem claim7_cluster_summary_roundtrip (cs : RClusterSummary)
    (hfe : cs.fFirstEntry < 2 ^ 64) (hn : cs.fNEntries < 2 ^ 63)
    (hg1 : -1 ≤ cs.fColumnGroupID) (hg2 : cs.fColumnGroupID < 2 ^ 31)
    (hnz : 0 ≤ cs.fColumnGroupID → 1 ≤ cs.fNEntries) :
    SerializeClusterSummary cs =
      .ok (int32Bytes (if 0 ≤ cs.fColumnGroupID then 24 else 20) ++
          (uint64Bytes cs.fFirstEntry ++
            (if 0 ≤ cs.fColumnGroupID then
              int64Bytes (-(cs.fNEntries : Int)) ++
                uint32Bytes cs.fColumnGroupID.toNat
            else int64Bytes (cs.fNEntries : Int))),
        if 0 ≤ cs.fColumnGroupID then 24 else 20) ∧
    (SerializeClusterSummary cs).bind
        (fun p => DeserializeClusterSummary p.1 p.2) =
      .ok (cs, if 0 ≤ cs.fColumnGroupID then 24 else 20) := by
  obtain ⟨fe, n, g⟩ := cs
  have hfe2 : fe < 2 ^ 64 := hfe
  have hn2 : n < 2 ^ 63 := hn
  have hg12 : -1 ≤ g := hg1
  have hg22 : g < 2 ^ 31 := hg2
  have hts : toSigned 64 (n % 2 ^ 64) = (n : Int) := by
    unfold toSigned; split <;> omega
  by_cases hg : 0 ≤ g
  · simp only [if_pos hg]
    have hnz2 : 1 ≤ n := hnz hg
    have hgt : ((g % (2 : Int) ^ 32).toNat) = g.toNat := by omega
    have hlen : (uint64Bytes fe ++
        (int64Bytes (-(n : Int)) ++ uint32Bytes g.toNat)).length = 20 := by
      simp [uint32Bytes_length, uint64Bytes_length, int64Bytes_length]
    have hser : SerializeClusterSummary ⟨fe, n, g⟩ =
        .ok (int32Bytes 24 ++ (uint64Bytes fe ++
          (int64Bytes (-(n : Int)) ++ uint32Bytes g.toNat)), 24) := by
      simp only [SerializeClusterSummary]
      rw [if_pos hg, hts, hgt, hlen]
      rw [serializeFramePostscript_record _ _ (by norm_num) (by norm_num)]
      rw [exceptMap_ok]
      norm_num
    rw [hser]
    refine ⟨by norm_num, ?_⟩
    rw [exceptDotBind_ok]
    have hframe : DeserializeFrame (int32Bytes 24 ++ (uint64Bytes fe ++
        (int64Bytes (-(n : Int)) ++ uint32Bytes g.toNat))) 24 = .ok ⟨4, 24, 1⟩ := by
      refine DeserializeFrame_record _ 24 24 ?_ (by norm_num) (by norm_num)
      exact DeserializeInt32_int32Bytes 24 _ (by norm_num) (by norm_num)
    unfold DeserializeClusterSummary
    rw [hframe, exceptBind_ok]
    rw [show ((⟨4, 24, 1⟩ : FrameInfo).frameSize - (⟨4, 24, 1⟩ : FrameInfo).hdrSize) = 20
      from rfl]
    rw [List.drop_left' (int32Bytes_length 24)]
    rw [List.drop_left' (uint64Bytes_length fe)]
    have hd64 : DeserializeInt64 (int64Bytes (-(n : Int)) ++ uint32Bytes g.toNat) =
        -(n : Int) :=
      DeserializeInt64_int64Bytes _ _ (by omega) (by omega)
    have hdfe : DeserializeUInt64 (uint64Bytes fe ++
        (int64Bytes (-(n : Int)) ++ uint32Bytes g.toNat)) = fe :=
      DeserializeUInt64_uint64Bytes fe _ hfe2
    rw [hd64, if_neg (by norm_num), if_pos (by omega), if_neg (by norm_num), hdfe]
    rw [List.drop_left' (int64Bytes_length (-(n : Int)))]
    have hdg : DeserializeUInt32 (uint32Bytes g.toNat) = g.toNat := by
      simpa using DeserializeUInt32_uint32Bytes g.toNat [] (by omega)
    rw [hdg]
    have h1 : (-(-(n : Int))).toNat = n := by omega
    have h2 : toSigned 32 g.toNat = g := by
      unfold toSigned; split <;> omega
    rw [h1, h2]
  · simp only [if_neg hg]
    have hgm : g = -1 := by omega
    have hlen : (uint64Bytes fe ++ int64Bytes (n : Int)).length = 16 := by
      simp [uint64Bytes_length, int64Bytes_length]
    have hser : SerializeClusterSummary ⟨fe, n, g⟩ =
        .ok (int32Bytes 20 ++ (uint64Bytes fe ++ int64Bytes (n : Int)), 20) := by
      simp only [SerializeClusterSummary]
      rw [if_neg hg, hts, hlen]
      rw [serializeFramePostscript_record _ _ (by norm_num) (by norm_num)]
      rw [exceptMap_ok]
      norm_num
    rw [hser]
    refine ⟨by norm_num, ?_⟩
    rw [exceptDotBind_ok]
    have hframe : DeserializeFrame (int32Bytes 20 ++
        (uint64Bytes fe ++ int64Bytes (n : Int))) 20 = .ok ⟨4, 20, 1⟩ := by
      refine DeserializeFrame_record _ 20 20 ?_ (by norm_num) (by norm_num)
      exact DeserializeInt32_int32Bytes 20 _ (by norm_num) (by norm_num)
    unfold DeserializeClusterSummary
    rw [hframe, exceptBind_ok]
    rw [show ((⟨4, 20, 1⟩ : FrameInfo).frameSize - (⟨4, 20, 1⟩ : FrameInfo).hdrSize) = 16
      from rfl]
    rw [List.drop_left' (int32Bytes_length 20)]
    rw [List.drop_left' (uint64Bytes_length fe)]
    have hd64 : DeserializeInt64 (int64Bytes (n : Int)) = (n : Int) := by
      simpa using DeserializeInt64_int64Bytes (n : Int) [] (by omega) (by omega)
    have hdfe : DeserializeUInt64 (uint64Bytes fe ++ int64Bytes (n : Int)) = fe :=
      DeserializeUInt64_uint64Bytes fe _ hfe2
    rw [hd64, if_neg (by norm_num), if_neg (by omega), hdfe]
    have h1 : ((n : Int)).toNat = n := by omega
    rw [h1, hgm]

/-- Summary with a zero entry count and column group 0. -/
def zeroEntriesSummary : RClusterSummary := ⟨0, 0, 0⟩

/-- C7 counterexample: the summary {first_entry 0, n_entries 0,
column_group_id 0} satisfies the claim's hypotheses (`n_entries < 2 ^ 63`,
`column_group_id ≥ -1`) but does not round-trip: the negated count is
written as 0, so decoding takes the verbatim branch and returns
`column_group_id = -1`. -/
theorem claim7_counterexample :
    (SerializeClusterSummary zeroEntriesSummary).bind
        (fun p => DeserializeClusterSummary p.1 p.2) =
      .ok (⟨0, 0, -1⟩, 24) ∧
    (⟨0, 0, -1⟩ : RClusterSummary) ≠ zeroEntriesSummary := by decide

/-- Witness for C7 at the concrete summary {5, 7, 3}. -/
theorem claim7_cluster_summary_roundtrip_witness :
    SerializeClusterSummary ⟨5, 7, 3⟩ =
      .ok (int32Bytes (if 0 ≤ (⟨5, 7, 3⟩ : RClusterSummary).fColumnGroupID then 24 else 20) ++
          (uint64Bytes 5 ++
            (if 0 ≤ (⟨5, 7, 3⟩ : RClusterSummary).fColumnGroupID then
              int64Bytes (-(7 : Int)) ++ uint32Bytes (3 : Int).toNat
            else int64Bytes (7 : Int))),
        if 0 ≤ (⟨5, 7, 3⟩ : RClusterSummary).fColumnGroupID then 24 else 20) ∧
    (SerializeClusterSummary ⟨5, 7, 3⟩).bind
        (fun p => DeserializeClusterSummary p.1 p.2) =
      .ok (⟨5, 7, 3⟩, if 0 ≤ (⟨5, 7, 3⟩ : RClusterSummary).fColumnGroupID then 24 else 20) :=
  claim7_cluster_summary_roundtrip ⟨5, 7, 3⟩ (by norm_num) (by norm_num) (by norm_num)
    (by norm_num) (fun _ => by norm_num)

/-! ## Claim C10 -/

/-- C10 (amended): for every locator whose URL is empty and whose
`bytes_on_storage` fits in a signed 32-bit value (`< 2 ^ 31` — the claim
omitted this bound, and `SerializeLocator` fails with locator-too-large at
`2 ^ 31`), `SerializeLocator` emits the inline form `u32 bytes_on_storage`
then `u64 position` (12 bytes, the URL branch being taken only for a
non-empty URL), so a URL locator with an empty URL is not representable, and
round-tripping through `DeserializeLocator` returns the same locator with an
empty URL field, consuming 12 bytes. -/
theorem claim10_empty_url_locator_inline (locator : RNTupleLocator)
    (hurl : locator.fUrl = []) (hb : locator.fBytesOnStorage < 2 ^ 31)
    (hp : locator.fPosition < 2 ^ 64) :
    SerializeLocator locator =
      .ok (uint32Bytes locator.fBytesOnStorage ++ uint64Bytes locator.fPosition) ∧
    (∀ bs, SerializeLocator locator = .ok bs → bs.length = 12) ∧
    (SerializeLocator locator).bind (fun bs => DeserializeLocator bs bs.length) =
      .ok (locator, 12) := by
  obtain ⟨p, b, url⟩ := locator
  subst hurl
  have hb2 : b < 2 ^ 31 := hb
  have hp2 : p < 2 ^ 64 := hp
  have hser : SerializeLocator ⟨p, b, []⟩ = .ok (uint32Bytes b ++ uint64Bytes p) := by
    unfold SerializeLocator
    rw [if_neg (by simp), if_neg (by unfold toSigned; split <;> omega)]
  have hlen : (uint32Bytes b ++ uint64Bytes p).length = 12 := by
    simp [uint32Bytes_length, uint64Bytes_length]
  refine ⟨hser, ?_, ?_⟩
  · intro bs h
    rw [hser] at h
    cases h
    exact hlen
  · rw [hser, exceptDotBind_ok, hlen]
    have hd32 : DeserializeInt32 (uint32Bytes b ++ uint64Bytes p) = (b : Int) := by
      unfold uint32Bytes
      have : toSigned 32 (b % 2 ^ 32) = (b : Int) := by
        unfold toSigned; split <;> omega
      rw [this]
      exact DeserializeInt32_int32Bytes b (uint64Bytes p) (by omega) (by omega)
    unfold DeserializeLocator
    rw [if_neg (by omega), hd32]
    rw [if_neg (by omega), if_neg (by omega)]
    rw [List.drop_left' (uint32Bytes_length b)]
    have : DeserializeUInt64 (uint64Bytes p) = p := by
      simpa using DeserializeUInt64_uint64Bytes p [] hp
    rw [this]
    simp only [Int.toNat_natCast]

/-- C10 counterexample: the empty-URL locator with `bytes_on_storage = 2 ^ 31`
is not emitted as a 12-byte inline form — `SerializeLocator` fails with
locator-too-large, so the claim's unconditional "emits the inline form
(12 bytes)" for every empty-URL locator is false. -/
theorem claim10_counterexample :
    SerializeLocator ⟨0, 2 ^ 31, []⟩ = .error .locatorTooLarge ∧
    SerializeLocator ⟨0, 2 ^ 31, []⟩ ≠
      .ok (uint32Bytes (2 ^ 31) ++ uint64Bytes 0) := by decide

/-- Witness for C10 at the concrete locator {position 9, 3 bytes, no URL}. -/
theorem claim10_empty_url_locator_inline_witness :
    SerializeLocator ⟨9, 3, []⟩ = .ok (uint32Bytes 3 ++ uint64Bytes 9) ∧
    (∀ bs, SerializeLocator ⟨9, 3, []⟩ = .ok bs → bs.length = 12) ∧
    (SerializeLocator ⟨9, 3, []⟩).bind (fun bs => DeserializeLocator bs bs.length) =
      .ok (⟨9, 3, []⟩, 12) :=
  claim10_empty_url_locator_inline ⟨9, 3, []⟩ rfl (by norm_num) (by norm_num)

end RNTuple
